import Mathlib

/-!
# Ride lifecycle of the uber-backend service

A shallow embedding of `src/utils/calculations.js`, `src/routes/rides.js`,
`src/routes/payments.js`, `src/utils/socket.js` and the rating handler of
`src/routes/users.js`.

* JavaScript numbers are IEEE-754 binary64 values.  A finite value is kept as the
  exact rational it denotes, every arithmetic result is rounded to the nearest
  binary64 value (ties to even), with overflow to the infinities and with NaN.
  The two zeros are identified.
* `Math.sin`, `Math.cos`, `Math.sqrt` and `Math.atan2` are supplied by the
  JavaScript engine; they are a parameter (`MathImpl`) of `calculateDistance`.
* The `rides` table is a list of rows; the query builder calls used by the
  handlers (`insert`, `update … eq … select … single`) are modelled on that list.
* A handler takes the table and returns the new table, the HTTP reply and the
  list of Socket.IO events it emitted.
* The connection registry is the `connectedUsers` map together with the room
  membership kept by Socket.IO; the socket handlers are functions on it.
-/

namespace Uber

/-! ## JavaScript numbers -/

/-- A JavaScript Number: NaN, the two infinities, or a finite binary64 value
given by the rational it denotes. -/
inductive JSNum where
  | nan
  | pinf
  | ninf
  | num (q : ℚ)
  deriving DecidableEq

namespace JSNum

/-- Nearest integer, ties to the even one. -/
def roundHalfEven (x : ℚ) : ℤ :=
  if x - ⌊x⌋ < 1 / 2 then ⌊x⌋
  else if 1 / 2 < x - ⌊x⌋ then ⌊x⌋ + 1
  else if ⌊x⌋ % 2 = 0 then ⌊x⌋ else ⌊x⌋ + 1

/-- Binary exponent of the last mantissa bit of the binary64 value nearest `q`:
53 bits of mantissa, smallest normal exponent -1022. -/
def ulpExp (q : ℚ) : ℤ :=
  max (Int.log 2 |q|) (-1022) - 52

/-- Rounding of an exact result to binary64, round-to-nearest, ties-to-even;
a rounded magnitude of `2 ^ 1024` or more overflows to an infinity. -/
def fl (q : ℚ) : JSNum :=
  if (2 : ℚ) ^ (1024 : ℤ) ≤ |(roundHalfEven (q / 2 ^ ulpExp q) : ℚ) * 2 ^ ulpExp q| then
    (if 0 < q then pinf else ninf)
  else num ((roundHalfEven (q / 2 ^ ulpExp q) : ℚ) * 2 ^ ulpExp q)

/-- Unary minus. -/
def neg : JSNum → JSNum
  | nan => nan
  | pinf => ninf
  | ninf => pinf
  | num a => num (-a)

/-- The `+` operator on Numbers. -/
def add : JSNum → JSNum → JSNum
  | nan, _ => nan
  | _, nan => nan
  | pinf, ninf => nan
  | ninf, pinf => nan
  | pinf, _ => pinf
  | _, pinf => pinf
  | ninf, _ => ninf
  | _, ninf => ninf
  | num a, num b => fl (a + b)

/-- The binary `-` operator on Numbers. -/
def sub (x y : JSNum) : JSNum :=
  add x (neg y)

/-- The `*` operator on Numbers. -/
def mul : JSNum → JSNum → JSNum
  | nan, _ => nan
  | _, nan => nan
  | pinf, pinf => pinf
  | pinf, ninf => ninf
  | ninf, pinf => ninf
  | ninf, ninf => pinf
  | pinf, num b => if b = 0 then nan else if 0 < b then pinf else ninf
  | ninf, num b => if b = 0 then nan else if 0 < b then ninf else pinf
  | num a, pinf => if a = 0 then nan else if 0 < a then pinf else ninf
  | num a, ninf => if a = 0 then nan else if 0 < a then ninf else pinf
  | num a, num b => fl (a * b)

/-- The `/` operator on Numbers (a zero divisor is taken as `+0`). -/
def div : JSNum → JSNum → JSNum
  | nan, _ => nan
  | _, nan => nan
  | pinf, pinf => nan
  | pinf, ninf => nan
  | ninf, pinf => nan
  | ninf, ninf => nan
  | pinf, num b => if b < 0 then ninf else pinf
  | ninf, num b => if b < 0 then pinf else ninf
  | num _, pinf => num 0
  | num _, ninf => num 0
  | num a, num b =>
    if b = 0 then (if a = 0 then nan else if 0 < a then pinf else ninf)
    else fl (a / b)

/-- `Math.round`: the nearest integer, a tie going towards `+∞`. -/
def round : JSNum → JSNum
  | nan => nan
  | pinf => pinf
  | ninf => ninf
  | num a => num (⌊a + 1 / 2⌋ : ℤ)

/-- Truthiness of a Number: `0` and `NaN` are falsy. -/
def truthy : JSNum → Bool
  | nan => false
  | num a => decide (a ≠ 0)
  | _ => true

/-- `JSON.stringify` of a Number: a finite value stays, `NaN` and the
infinities become `null`. -/
def toJSON : JSNum → Option ℚ
  | num a => some a
  | _ => none

end JSNum

open JSNum

/-! ## `src/utils/calculations.js` -/

/-- The engine's `Math` functions used by `calculateDistance`. -/
structure MathImpl where
  sin : JSNum → JSNum
  cos : JSNum → JSNum
  sqrt : JSNum → JSNum
  atan2 : JSNum → JSNum → JSNum

/-- `Math.PI`, the binary64 value `3.141592653589793`. -/
def Math_PI : JSNum :=
  num (884279719003555 / 281474976710656)

/-- A coordinate pair `{ lat, lng }`, each member taken through `ToNumber`
(a missing or non-numeric member is `NaN`). -/
structure Coord where
  lat : JSNum
  lng : JSNum
  deriving DecidableEq

/-- `toRad(value)`: `value * Math.PI / 180`. -/
def toRad (value : JSNum) : JSNum :=
  div (mul value Math_PI) (num 180)

/-- `calculateDistance(coord1, coord2)`, lines 2-15. -/
def calculateDistance (M : MathImpl) (coord1 coord2 : Coord) : JSNum :=
  let R := num 3959
  let dLat := toRad (sub coord2.lat coord1.lat)
  let dLon := toRad (sub coord2.lng coord1.lng)
  let a := add (mul (M.sin (div dLat (num 2))) (M.sin (div dLat (num 2))))
    (mul (mul (mul (M.cos (toRad coord1.lat)) (M.cos (toRad coord2.lat)))
      (M.sin (div dLon (num 2)))) (M.sin (div dLon (num 2))))
  let c := mul (num 2) (M.atan2 (M.sqrt a) (M.sqrt (sub (num 1) a)))
  let distance := mul R c
  div (round (mul distance (num 100))) (num 100)

/-- The value of a property read from an object: absent, a Number, or some
other object (a function included). -/
inductive JSVal where
  | undefined
  | number (x : JSNum)
  | object
  deriving DecidableEq

/-- Truthiness, as used by `||`. -/
def JSVal.truthy : JSVal → Bool
  | .undefined => false
  | .number x => x.truthy
  | .object => true

/-- `ToNumber`, as applied by `*`: an absent value and an object that is not
a Number give `NaN`. -/
def JSVal.toNumber : JSVal → JSNum
  | .number x => x
  | _ => nan

/-- The `rideType` argument as it arrives from the request body. -/
inductive RideTypeArg where
  | undefined
  | null
  | str (s : String)
  deriving DecidableEq

/-- The property key an argument is converted to (`ToString`). -/
def RideTypeArg.key : RideTypeArg → String
  | .undefined => "undefined"
  | .null => "null"
  | .str s => s

/-- Property names every object literal inherits from `Object.prototype`. -/
def objectPrototypeKeys : List String :=
  ["constructor", "__defineGetter__", "__defineSetter__", "hasOwnProperty",
   "__lookupGetter__", "__lookupSetter__", "isPrototypeOf", "propertyIsEnumerable",
   "toString", "valueOf", "__proto__", "toLocaleString"]

/-- The read `perMileRates[key]` on the object literal of lines 20-25: its four
own properties, then the properties inherited from `Object.prototype`. -/
def perMileRates (key : String) : JSVal :=
  if key = "economy" then .number (fl (120 / 100))
  else if key = "standard" then .number (fl (150 / 100))
  else if key = "premium" then .number (fl (200 / 100))
  else if key = "xl" then .number (fl (250 / 100))
  else if key ∈ objectPrototypeKeys then .object
  else .undefined

/-- `calculateFare(distance, rideType = 'standard')`, lines 18-31. -/
def calculateFare (distance : JSNum) (rideType : RideTypeArg) : JSNum :=
  let rideType := if rideType = .undefined then RideTypeArg.str "standard" else rideType
  let baseFare := fl (250 / 100)
  let perMileRate :=
    if (perMileRates rideType.key).truthy then perMileRates rideType.key
    else perMileRates "standard"
  let fare := add baseFare (mul distance perMileRate.toNumber)
  div (round (mul fare (num 100))) (num 100)

/-! ## The `rides` table, replies and events -/

/-- Row and user identifiers, as they appear in URLs, tokens and room names. -/
abbrev Id := String

/-- Modelled from the spec: the identity check (`middleware/auth.js`, not among
the sources) hands every request a verified `(userId, userType)` pair,
`req.user`. -/
structure User where
  userId : Id
  userType : String
  deriving DecidableEq

/-- Modelled from the spec: the schema of the `rides` table is not among the
sources. A row has the columns the handlers read or write; a column left out
of an insert holds `null` (`none`), so a new ride has no driver and no final
fare. -/
structure Ride where
  id : Id
  rider_id : Id
  driver_id : Option Id
  pickup_address : String
  dropoff_address : String
  pickup_coordinates : Coord
  dropoff_coordinates : Coord
  ride_type : String
  distance : Option ℚ
  estimated_fare : Option ℚ
  final_fare : Option ℚ
  status : String
  created_at : String
  accepted_at : Option String
  completed_at : Option String
  payment_status : Option String
  payment_intent_id : Option String
  payment_method : Option String
  deriving DecidableEq

/-- The payload of an emitted event. -/
inductive Payload where
  | newRideRequest (rideId riderId : Id) (pickupAddress dropoffAddress : String)
      (pickupCoordinates dropoffCoordinates : Coord) (estimatedFare distance : JSNum)
      (rideType : String)
  | rideAccepted (rideId : Id) (driver : Option Id) (status message : String)
  | rideTaken (rideId : Id)
  | rideCompleted (rideId : Id) (finalFare : Option ℚ) (status : String)
  | paymentCompleted (rideId : Id) (finalFare : Option ℚ)
  deriving DecidableEq

/-- One `io.to(room).emit(event, payload)`. -/
structure Emit where
  room : String
  event : String
  payload : Payload
  deriving DecidableEq

/-- The HTTP reply: a status code with either an `error` body (the payment
handler adds a `status` member) or a `message` and the ride. -/
inductive Reply where
  | error (code : Nat) (error : String)
  | paymentError (code : Nat) (error status : String)
  | ride (code : Nat) (message : String) (ride : Ride)
  deriving DecidableEq

/-- What a handler call leaves behind: the table, the reply, the events. -/
structure Outcome where
  db : List Ride
  reply : Reply
  emitted : List Emit
  deriving DecidableEq

/-- A handler call has succeeded when it replied with the ride. -/
def Reply.isSuccess : Reply → Bool
  | .ride _ _ _ => true
  | _ => false

/-- Modelled from the spec: a ride is identified by its id, the primary key of
the table (declared outside the sources): no two rows share an `id`. -/
def PrimaryKey (db : List Ride) : Prop :=
  (db.map Ride.id).Nodup

instance (db : List Ride) : Decidable (PrimaryKey db) := by
  unfold PrimaryKey
  infer_instance

/-- Modelled from the spec: the conditional update of the persistence service,
called as `from('rides').update(f).eq(…)…select()`. Every row the filters
match is rewritten; the rewritten rows are returned. -/
def updateWhere (p : Ride → Bool) (f : Ride → Ride) (db : List Ride) :
    List Ride × List Ride :=
  (db.map (fun r => if p r then f r else r), (db.filter p).map f)

/-- Modelled from the spec: the modifier `.single()` of the persistence
service. The result must be exactly one row, anything else is the no-match
failure. -/
def single : List Ride → Option Ride
  | [r] => some r
  | _ => none

/-- Modelled from the spec: the create operation of the persistence service,
called as `from('rides').insert([row]).select().single()`. The database either
fails or supplies the new row's id; an id already in use violates the primary
key and fails as well. -/
def insertRow (row : Id → Ride) (generated : Option Id) (db : List Ride) :
    Option (List Ride × Ride) :=
  match generated with
  | none => none
  | some i => if i ∈ db.map Ride.id then none else some (db ++ [row i], row i)

/-! ## `src/routes/rides.js` -/

/-- The body of `POST /request`. A coordinate member that is `undefined` or
`null` is `none`. -/
structure RideRequestBody where
  pickupAddress : String
  dropoffAddress : String
  pickupCoordinates : Option Coord
  dropoffCoordinates : Option Coord
  rideType : RideTypeArg

/-- The expression `rideType || 'standard'`. -/
def rideTypeOrStandard : RideTypeArg → String
  | .str s => if s = "" then "standard" else s
  | _ => "standard"

/-- The handler of `POST /request`, lines 9-67. `now` is the clock reading and
`generated` the database's answer to the insert. Reading `.lat` of an absent
coordinate throws, which the `catch` turns into the 500 reply. -/
def requestRide (M : MathImpl) (now : String) (generated : Option Id) (user : User)
    (body : RideRequestBody) (db : List Ride) : Outcome :=
  if user.userType ≠ "rider" then
    ⟨db, .error 403 "Only riders can request rides", []⟩
  else
    match body.pickupCoordinates, body.dropoffCoordinates with
    | some pickupCoordinates, some dropoffCoordinates =>
      let distance := calculateDistance M pickupCoordinates dropoffCoordinates
      let estimatedFare := calculateFare distance body.rideType
      match insertRow (fun i =>
          { id := i
            rider_id := user.userId
            driver_id := none
            pickup_address := body.pickupAddress
            dropoff_address := body.dropoffAddress
            pickup_coordinates := pickupCoordinates
            dropoff_coordinates := dropoffCoordinates
            ride_type := rideTypeOrStandard body.rideType
            distance := distance.toJSON
            estimated_fare := estimatedFare.toJSON
            final_fare := none
            status := "requested"
            created_at := now
            accepted_at := none
            completed_at := none
            payment_status := none
            payment_intent_id := none
            payment_method := none }) generated db with
      | none => ⟨db, .error 500 "Failed to create ride request", []⟩
      | some (db1, ride) =>
        ⟨db1, .ride 201 "Ride requested successfully" ride,
          [⟨"drivers", "new-ride-request",
            .newRideRequest ride.id user.userId body.pickupAddress body.dropoffAddress
              pickupCoordinates dropoffCoordinates estimatedFare distance
              (rideTypeOrStandard body.rideType)⟩]⟩
    | _, _ => ⟨db, .error 500 "Internal server error", []⟩

/-- The handler of `POST /:rideId/accept`, lines 70-120. The joined `driver`
profile of the payload is represented by the driver's id. -/
def acceptRide (now : String) (user : User) (rideId : Id) (db : List Ride) : Outcome :=
  if user.userType ≠ "driver" then
    ⟨db, .error 403 "Only drivers can accept rides", []⟩
  else
    let res := updateWhere (fun r => r.id = rideId && r.status = "requested")
      (fun r => { r with driver_id := some user.userId, status := "accepted",
                         accepted_at := some now }) db
    match single res.2 with
    | none => ⟨res.1, .error 400 "Ride not available or already accepted", []⟩
    | some ride =>
      ⟨res.1, .ride 200 "Ride accepted successfully" ride,
        [⟨"rider-" ++ ride.rider_id, "ride-accepted",
            .rideAccepted ride.id ride.driver_id "accepted" "Driver is on the way!"⟩,
         ⟨"drivers", "ride-taken", .rideTaken ride.id⟩]⟩

/-- A numeric member of a request body: absent, `null`, or a Number. -/
inductive Field where
  | undefined
  | null
  | number (x : JSNum)
  deriving DecidableEq

/-- The expression `req.body.finalFare || null`, as it is written to the row. -/
def finalFareOrNull : Field → Option ℚ
  | .number x => if x.truthy then x.toJSON else none
  | _ => none

/-- The handler of `PATCH /:rideId/complete`, lines 123-164. -/
def completeRide (now : String) (user : User) (rideId : Id) (finalFare : Field)
    (db : List Ride) : Outcome :=
  let res := updateWhere (fun r => r.id = rideId && r.driver_id = some user.userId)
    (fun r => { r with status := "completed", completed_at := some now,
                       final_fare := finalFareOrNull finalFare }) db
  match single res.2 with
  | none => ⟨res.1, .error 400 "Failed to complete ride", []⟩
  | some ride =>
    ⟨res.1, .ride 200 "Ride completed successfully" ride,
      [⟨"rider-" ++ ride.rider_id, "ride-completed",
          .rideCompleted ride.id ride.final_fare "completed"⟩]⟩

/-! ## `src/routes/payments.js` -/

/-- The body of `POST /confirm-payment`. -/
structure ConfirmPaymentBody where
  paymentIntentId : Option String
  rideId : Id
  paymentMethod : Option String
  amount : Field

/-- Truthiness of an optional string: absent and empty are falsy. -/
def truthyStr : Option String → Bool
  | some s => decide (s ≠ "")
  | none => false

/-- The member `final_fare: finalAmount` of the update object: an `undefined`
value drops the member, so the column is kept. -/
def setFinalFare (finalAmount : Field) (old : Option ℚ) : Option ℚ :=
  match finalAmount with
  | .undefined => old
  | .null => none
  | .number x => x.toJSON

/-- The handler of `POST /confirm-payment`, lines 54-116. `stripe` answers
`paymentIntents.retrieve` with the intent's `status` and `amount`, or throws
(`none`). -/
def confirmPayment (stripe : String → Option (String × JSNum)) (body : ConfirmPaymentBody)
    (db : List Ride) : Outcome :=
  let verdict : Option (Bool × Field) :=
    if body.paymentMethod = some "cash" ∨ body.paymentMethod = some "qr" then
      some (true, body.amount)
    else if truthyStr body.paymentIntentId then
      match stripe (body.paymentIntentId.getD "") with
      | none => none
      | some (status, amount) =>
        some (decide (status = "succeeded"), .number (div amount (num 100)))
    else some (false, body.amount)
  match verdict with
  | none => ⟨db, .error 500 "Failed to confirm payment", []⟩
  | some (false, _) =>
    ⟨db, .paymentError 400 "Payment not successful"
      (if truthyStr body.paymentIntentId then "failed" else "invalid_method"), []⟩
  | some (true, finalAmount) =>
    let res := updateWhere (fun r => r.id = body.rideId)
      (fun r => { r with payment_status := some "completed",
                         final_fare := setFinalFare finalAmount r.final_fare,
                         payment_intent_id :=
                           if truthyStr body.paymentIntentId then body.paymentIntentId else none,
                         payment_method :=
                           if truthyStr body.paymentMethod then body.paymentMethod
                           else some "card" }) db
    match single res.2 with
    | none => ⟨res.1, .error 500 "Failed to update ride payment", []⟩
    | some ride =>
      ⟨res.1, .ride 200 "Payment confirmed successfully" ride,
        [⟨"rider-" ++ ride.rider_id, "payment-completed",
            .paymentCompleted ride.id ride.final_fare⟩]⟩

/-! ## Handler calls and the properties of the ride store -/

/-- One call of a handler, with everything its environment supplies. -/
inductive Call where
  | request (M : MathImpl) (now : String) (generated : Option Id) (user : User)
      (body : RideRequestBody)
  | accept (now : String) (user : User) (rideId : Id)
  | complete (now : String) (user : User) (rideId : Id) (finalFare : Field)
  | confirm (stripe : String → Option (String × JSNum)) (body : ConfirmPaymentBody)

/-- Running a call on the table. -/
def Call.run : Call → List Ride → Outcome
  | .request M now generated user body, db => requestRide M now generated user body db
  | .accept now user rideId, db => acceptRide now user rideId db
  | .complete now user rideId finalFare, db => completeRide now user rideId finalFare db
  | .confirm stripe body, db => confirmPayment stripe body db

/-- The calls served by `src/routes/rides.js`: Create, Accept and Complete. -/
def Call.isRideHandler : Call → Bool
  | .confirm _ _ => false
  | _ => true

/-- The edges of the ride lifecycle graph as the specification draws it:
requested → accepted → started → completed, and cancelled from requested or
accepted. -/
def lifecycleEdge (s t : String) : Bool :=
  (s, t) ∈ [("requested", "accepted"), ("accepted", "started"), ("started", "completed"),
    ("requested", "cancelled"), ("accepted", "cancelled")]

/-- A ride cancelled after it had been accepted: its acceptance time is recorded. -/
def cancelledAfterAccept (r : Ride) : Bool :=
  r.status = "cancelled" && r.accepted_at.isSome

/-- The driver invariant of a row: a driver is set exactly in the statuses
accepted, started, completed and cancelled-after-accept. -/
def DriverInvariant (r : Ride) : Prop :=
  r.driver_id.isSome = true ↔
    (r.status = "accepted" ∨ r.status = "started" ∨ r.status = "completed" ∨
      cancelledAfterAccept r = true)

instance (r : Ride) : Decidable (DriverInvariant r) := by
  unfold DriverInvariant
  infer_instance

/-- The final-fare invariant of a row: a final fare is present only on a
completed ride. -/
def FinalFareInvariant (r : Ride) : Prop :=
  r.final_fare.isSome = true → r.status = "completed"

instance (r : Ride) : Decidable (FinalFareInvariant r) := by
  unfold FinalFareInvariant
  infer_instance


/-! ## A reference `Math` and the accuracy asked of an engine -/

/-- A small-angle implementation of the engine functions: the cubic Taylor
polynomial for the sine, the quadratic one, clamped to `[-1, 1]`, for the
cosine, the integer square root on 60 fractional bits, and `y / x` for
`atan2(y, x)` with `x > 0`. It shows that the assumptions made on the engine
can be met; it is accurate near zero only. -/
def refMath : MathImpl where
  sin := fun x => match x with
    | num q => fl (q - q ^ 3 / 6)
    | _ => nan
  cos := fun x => match x with
    | num q => fl (max (-1) (min 1 (1 - q ^ 2 / 2)))
    | _ => nan
  sqrt := fun x => match x with
    | num q => if q < 0 then nan else fl ((Nat.sqrt ⌊q * 4 ^ 60⌋₊ : ℚ) / 2 ^ 60)
    | pinf => pinf
    | _ => nan
  atan2 := fun y x => match y, x with
    | num b, num a => if 0 < a then fl (b / a) else nan
    | _, _ => nan

/-- The exact values and the symmetry of the engine functions that
`calculateDistance` relies on: an odd sine with `sin 0 = 0`, a finite cosine
within `[-1, 1]`, `sqrt 0 = 0`, `sqrt 1 = 1` and `atan2(0, 1) = 0`. -/
structure MathExact (M : MathImpl) : Prop where
  sin_odd : ∀ x : JSNum, M.sin (neg x) = neg (M.sin x)
  sin_zero : M.sin (num 0) = num 0
  cos_range : ∀ q : ℚ, ∃ c : ℚ, M.cos (num q) = num c ∧ |c| ≤ 1
  sqrt_zero : M.sqrt (num 0) = num 0
  sqrt_one : M.sqrt (num 1) = num 1
  atan2_zero_one : M.atan2 (num 0) (num 1) = num 0

/-- The accuracy of the engine functions, against the real functions, on the
arguments met when two nearby points are compared: absolute error at most
`10⁻⁸` for the sine on `[0, 1/1024]`, for the square root on `[0, 2]`, and
for `atan2(y, x)` with `y` in `[0, 1/1024]` and `x` in `[1/2, 2]`. -/
structure MathAccurate (M : MathImpl) : Prop where
  sin_small : ∀ q : ℚ, 0 ≤ q → q ≤ 1 / 1024 →
    ∃ s : ℚ, M.sin (num q) = num s ∧ |(s : ℝ) - Real.sin (q : ℝ)| ≤ 1 / 10 ^ 8
  sqrt_close : ∀ q : ℚ, 0 ≤ q → q ≤ 2 →
    ∃ r : ℚ, M.sqrt (num q) = num r ∧ |(r : ℝ) - Real.sqrt (q : ℝ)| ≤ 1 / 10 ^ 8
  atan2_small : ∀ y x : ℚ, 0 ≤ y → y ≤ 1 / 1024 → 1 / 2 ≤ x → x ≤ 2 →
    ∃ t : ℚ, M.atan2 (num y) (num x) = num t ∧
      |(t : ℝ) - Real.arctan ((y : ℝ) / (x : ℝ))| ≤ 1 / 10 ^ 8

/-! ## Sample data -/

/-- A ride as Create leaves it: requested, no driver, no final fare. -/
def sampleRide : Ride :=
  { id := "r1", rider_id := "u1", driver_id := none, pickup_address := "A",
    dropoff_address := "B", pickup_coordinates := ⟨num 40, num (-73)⟩,
    dropoff_coordinates := ⟨num 41, num (-73)⟩, ride_type := "standard",
    distance := some 1, estimated_fare := some 4, final_fare := none,
    status := "requested", created_at := "t0", accepted_at := none,
    completed_at := none, payment_status := none, payment_intent_id := none,
    payment_method := none }

/-! ## `src/utils/socket.js` -/

/-- The payload of a `join` event: `{ userId, userType }`, both as the strings
they are turned into by the room-name template. (A `join` without a payload
throws before any room is joined and is not modelled.) -/
structure UserData where
  userId : String
  userType : String
  deriving DecidableEq

/-- The method `Map.prototype.set` on `connectedUsers`, a map kept as the list
of its entries in insertion order: an existing key keeps its place and gets
the new value, a new key is appended. -/
def mapSet (k : Id) (v : UserData) : List (Id × UserData) → List (Id × UserData)
  | [] => [(k, v)]
  | e :: rest => if e.1 = k then (k, v) :: rest else e :: mapSet k v rest

/-- The method `Map.prototype.delete`. -/
def mapDelete (k : Id) (m : List (Id × UserData)) : List (Id × UserData) :=
  m.filter (fun e => e.1 ≠ k)

/-- The method `Map.prototype.get`; `none` is `undefined`. -/
def mapGet (k : Id) : List (Id × UserData) → Option UserData
  | [] => none
  | e :: rest => if e.1 = k then some e.2 else mapGet k rest

/-- The connection registry: the module's `connectedUsers` map and the room
membership kept by Socket.IO, a relation between socket ids and room names. -/
structure Registry where
  connectedUsers : List (Id × UserData)
  rooms : List (Id × String)
  deriving DecidableEq

/-- The transport call `socket.join(room)`: the socket becomes a member of the
room; joining twice changes nothing. -/
def socketJoin (c : Id) (room : String) (rooms : List (Id × String)) : List (Id × String) :=
  if (c, room) ∈ rooms then rooms else rooms ++ [(c, room)]

/-- What Socket.IO does to a closing socket before it fires `disconnect`: the
socket leaves every room it is in. -/
def leaveAll (c : Id) (rooms : List (Id × String)) : List (Id × String) :=
  rooms.filter (fun e => e.1 ≠ c)

/-- The handler of the `join` event on socket `c`, lines 8-19. -/
def onJoin (c : Id) (userData : UserData) (s : Registry) : Registry :=
  let joined := socketJoin c (userData.userType ++ "-" ++ userData.userId) s.rooms
  { connectedUsers := mapSet c userData s.connectedUsers
    rooms :=
      if userData.userType = "driver" then socketJoin c "drivers" joined
      else if userData.userType = "rider" then
        socketJoin c ("rider-" ++ userData.userId) joined
      else joined }

/-- The handler of the `disconnect` event on socket `c`, lines 47-53: the entry
of the socket is deleted from `connectedUsers`. -/
def onDisconnect (c : Id) (s : Registry) : Registry :=
  { s with connectedUsers := mapDelete c s.connectedUsers }

/-- The disconnection of socket `c` as a whole: Socket.IO takes the socket out
of its rooms, then the `disconnect` handler runs. -/
def disconnect (c : Id) (s : Registry) : Registry :=
  onDisconnect c { s with rooms := leaveAll c s.rooms }

/-! ## `src/routes/users.js` -/

/-- Modelled from the spec: the schema of the `ratings` table is not among the
sources. A row has the columns the handler writes; a column left out of an
insert holds `null` (`none`). -/
structure Rating where
  id : Id
  ride_id : Id
  rider_id : Id
  driver_id : Option Id
  rating : Option ℚ
  comment : Option String
  created_at : String
  deriving DecidableEq

/-- The body of `POST /rate`. -/
structure RateBody where
  rideId : Id
  driverId : Option Id
  rating : Field
  comment : Option String

/-- The HTTP reply of `POST /rate`: a status code with an `error` body, or a
`message` and the new rating. -/
inductive RateReply where
  | error (code : Nat) (error : String)
  | rated (code : Nat) (message : String) (rating : Rating)
  deriving DecidableEq

/-- A rate call has succeeded when it replied with the rating. -/
def RateReply.isRated : RateReply → Bool
  | .rated _ _ _ => true
  | _ => false

/-- What a rate call leaves behind: the `ratings` table and the reply. -/
structure RateOutcome where
  ratings : List Rating
  reply : RateReply
  deriving DecidableEq

/-- Modelled from the spec: the modifier `.single()` of the persistence
service on any table. The result must be exactly one row; with no row or with
several the data is `null` (`none`). -/
def singleRow {α : Type} : List α → Option α
  | [r] => some r
  | _ => none

/-- Modelled from the spec: the create operation of the persistence service on
`ratings`, called as `from('ratings').insert([row]).select().single()`. The
database either fails or supplies the new row's id; an id already in use fails
as well. -/
def insertRating (row : Id → Rating) (generated : Option Id) (ratings : List Rating) :
    Option (List Rating × Rating) :=
  match generated with
  | none => none
  | some i => if i ∈ ratings.map Rating.id then none else some (ratings ++ [row i], row i)

/-- The member `rating: rating` of the inserted row, as JSON. -/
def ratingValue : Field → Option ℚ
  | .number x => x.toJSON
  | _ => none

/-- The handler of `POST /rate`, lines 38-97. `now` is the clock reading and
`generated` the database's answer to the insert. -/
def rateDriver (now : String) (generated : Option Id) (user : User) (body : RateBody)
    (rides : List Ride) (ratings : List Rating) : RateOutcome :=
  if user.userType ≠ "rider" then
    ⟨ratings, .error 403 "Only riders can rate drivers"⟩
  else
    match singleRow (rides.filter (fun r => r.id = body.rideId && r.rider_id = user.userId &&
        r.status = "completed")) with
    | none => ⟨ratings, .error 404 "Ride not found or not completed"⟩
    | some _ =>
      match singleRow (ratings.filter (fun x => x.ride_id = body.rideId)) with
      | some _ => ⟨ratings, .error 400 "Ride already rated"⟩
      | none =>
        match insertRating (fun i =>
            { id := i
              ride_id := body.rideId
              rider_id := user.userId
              driver_id := body.driverId
              rating := ratingValue body.rating
              comment := if truthyStr body.comment then body.comment else none
              created_at := now }) generated ratings with
        | none => ⟨ratings, .error 500 "Failed to add rating"⟩
        | some (ratings1, newRating) =>
          ⟨ratings1, .rated 200 "Rating added successfully" newRating⟩

/-- At most one rating per ride: no two rows of `ratings` share a `ride_id`. -/
def OneRatingPerRide (ratings : List Rating) : Prop :=
  (ratings.map Rating.ride_id).Nodup

instance (ratings : List Rating) : Decidable (OneRatingPerRide ratings) := by
  unfold OneRatingPerRide
  infer_instance

/-- A rating of ride `r1` by rider `u1`, with the given row id. -/
def sampleRating (i : Id) : Rating :=
  { id := i, ride_id := "r1", rider_id := "u1", driver_id := some "d1", rating := some 5,
    comment := none, created_at := "t5" }

/-! ## Lemmas on the query builder -/

theorem primaryKey_cons {r : Ride} {db : List Ride} :
    PrimaryKey (r :: db) ↔ (∀ x ∈ db, x.id ≠ r.id) ∧ PrimaryKey db := by
  unfold PrimaryKey
  simp only [List.map_cons, List.nodup_cons, List.mem_map, not_exists, not_and]

/-- Rows of a keyed table with the same id are the same row. -/
theorem eq_of_id_eq {db : List Ride} (hpk : PrimaryKey db) {r x : Ride}
    (hr : r ∈ db) (hx : x ∈ db) (hid : x.id = r.id) : x = r := by
  induction db with
  | nil => cases hr
  | cons y ys ih =>
    obtain ⟨hy, hys⟩ := primaryKey_cons.mp hpk
    rcases List.mem_cons.mp hr with hry | hrys
    · rcases List.mem_cons.mp hx with hxy | hxys
      · rw [hry, hxy]
      · exact absurd (hry ▸ hid) (hy x hxys)
    · rcases List.mem_cons.mp hx with hxy | hxys
      · exact absurd (hxy ▸ hid.symm) (hy r hrys)
      · exact ih hys hrys hxys

/-- A filter that selects by id selects, in a keyed table, the one matching row. -/
theorem filter_eq_singleton {db : List Ride} (hpk : PrimaryKey db) {r : Ride}
    (hr : r ∈ db) (p : Ride → Bool) (hp : p r = true)
    (hid : ∀ x, p x = true → x.id = r.id) : db.filter p = [r] := by
  induction db with
  | nil => cases hr
  | cons y ys ih =>
    obtain ⟨hy, hys⟩ := primaryKey_cons.mp hpk
    rcases List.mem_cons.mp hr with rfl | hr
    · have hnone : ys.filter p = [] := by
        rw [List.filter_eq_nil_iff]
        intro x hx hpx
        exact hy x hx (hid x hpx)
      simp [List.filter_cons, hp, hnone]
    · have hpy : p y = false := by
        by_contra h
        have h1 : p y = true := by simpa using h
        exact hy r hr (hid y h1).symm
      simp [List.filter_cons, hpy, ih hys hr]

/-- When no row matches, an update leaves the table as it was. -/
theorem map_if_eq_self {db : List Ride} (p : Ride → Bool) (f : Ride → Ride)
    (h : ∀ x ∈ db, p x = false) : db.map (fun r => if p r then f r else r) = db := by
  induction db with
  | nil => rfl
  | cons y ys ih =>
    have hy : p y = false := h y (List.mem_cons_self _ _)
    have hys : ∀ x ∈ ys, p x = false := fun x hx => h x (List.mem_cons_of_mem _ hx)
    simp [hy, ih hys]

/-- The rewrite done by a successful Accept. -/
theorem acceptRide_of_requested {db : List Ride} (hpk : PrimaryKey db) {r : Ride}
    (hr : r ∈ db) (hstatus : r.status = "requested") (now : String) (user : User)
    (hdriver : user.userType = "driver") :
    acceptRide now user r.id db =
      ⟨db.map (fun x => if (x.id = r.id && x.status = "requested") then
          { x with driver_id := some user.userId, status := "accepted",
                   accepted_at := some now } else x),
        .ride 200 "Ride accepted successfully"
          { r with driver_id := some user.userId, status := "accepted",
                   accepted_at := some now },
        [⟨"rider-" ++ r.rider_id, "ride-accepted",
            .rideAccepted r.id (some user.userId) "accepted" "Driver is on the way!"⟩,
         ⟨"drivers", "ride-taken", .rideTaken r.id⟩]⟩ := by
  have hp : (fun x : Ride => (decide (x.id = r.id) && decide (x.status = "requested"))) r
      = true := by simp [hstatus]
  have hfil := filter_eq_singleton hpk hr
    (fun x : Ride => (decide (x.id = r.id) && decide (x.status = "requested"))) hp
    (fun x hx => by simp at hx; exact hx.1)
  simp [acceptRide, hdriver, updateWhere, hfil, single]

/-- A failed Accept in a keyed table: no row matches and nothing is written. -/
theorem acceptRide_of_no_match {db : List Ride} (now : String) (user : User) (rideId : Id)
    (hdriver : user.userType = "driver")
    (hno : ∀ x ∈ db, x.id = rideId → x.status ≠ "requested") :
    acceptRide now user rideId db =
      ⟨db, .error 400 "Ride not available or already accepted", []⟩ := by
  have hp : ∀ x ∈ db, (fun x : Ride => (decide (x.id = rideId) &&
      decide (x.status = "requested"))) x = false := by
    intro x hx
    by_cases h : x.id = rideId
    · simp [h, hno x hx h]
    · simp [h]
  have hfil : db.filter (fun x : Ride => (decide (x.id = rideId) &&
      decide (x.status = "requested"))) = [] := by
    rw [List.filter_eq_nil_iff]
    intro x hx
    simp [hp x hx]
  simp only [acceptRide, hdriver, updateWhere, hfil]
  rw [map_if_eq_self _ _ hp]
  simp [single]

/-- C1. Exclusive acceptance. In a keyed store holding a ride `r` in status
requested, two Accept calls for `r` by drivers `d1` then `d2` (any two drivers,
so either order) run one after the other: the first succeeds, the second gets
the 400 failure, writes nothing and emits nothing; afterwards the row of `r` is
`r` with status accepted, the first driver's id and the acceptance time. -/
theorem accept_exclusive (db : List Ride) (r : Ride) (d1 d2 : User) (now1 now2 : String)
    (hpk : PrimaryKey db) (hr : r ∈ db) (hstatus : r.status = "requested")
    (h1 : d1.userType = "driver") (h2 : d2.userType = "driver") :
    (acceptRide now1 d1 r.id db).reply = .ride 200 "Ride accepted successfully"
        { r with driver_id := some d1.userId, status := "accepted",
                 accepted_at := some now1 } ∧
    (acceptRide now2 d2 r.id (acceptRide now1 d1 r.id db).db).reply =
        .error 400 "Ride not available or already accepted" ∧
    (acceptRide now2 d2 r.id (acceptRide now1 d1 r.id db).db).db =
        (acceptRide now1 d1 r.id db).db ∧
    (acceptRide now2 d2 r.id (acceptRide now1 d1 r.id db).db).emitted = [] ∧
    (∀ x ∈ (acceptRide now2 d2 r.id (acceptRide now1 d1 r.id db).db).db, x.id = r.id →
        x = { r with driver_id := some d1.userId, status := "accepted",
                     accepted_at := some now1 }) ∧
    (∃ x ∈ (acceptRide now2 d2 r.id (acceptRide now1 d1 r.id db).db).db, x.id = r.id) := by
  rw [acceptRide_of_requested hpk hr hstatus now1 d1 h1]
  simp only
  have hrows : ∀ x ∈ db.map (fun x => if (x.id = r.id && x.status = "requested") then
          { x with driver_id := some d1.userId, status := "accepted",
                   accepted_at := some now1 } else x), x.id = r.id →
      x = { r with driver_id := some d1.userId, status := "accepted",
                   accepted_at := some now1 } := by
    intro x hx hid
    obtain ⟨y, hy, rfl⟩ := List.mem_map.mp hx
    by_cases hc : (y.id = r.id && y.status = "requested") = true
    · rw [if_pos hc] at hid ⊢
      have hyr : y = r := eq_of_id_eq hpk hr hy hid
      rw [hyr]
    · rw [if_neg hc] at hid ⊢
      have hyr : y = r := eq_of_id_eq hpk hr hy hid
      rw [hyr] at hc
      simp [hstatus] at hc
  have hno : ∀ x ∈ db.map (fun x => if (x.id = r.id && x.status = "requested") then
          { x with driver_id := some d1.userId, status := "accepted",
                   accepted_at := some now1 } else x), x.id = r.id →
      x.status ≠ "requested" := by
    intro x hx hid
    rw [hrows x hx hid]
    simp
  rw [acceptRide_of_no_match now2 d2 r.id h2 hno]
  refine ⟨by trivial, by trivial, by trivial, by trivial, hrows, ?_⟩
  refine ⟨_, List.mem_map.mpr ⟨r, hr, rfl⟩, ?_⟩
  simp [hstatus]

/-- Accept by an actor who is not a driver: the 403 reply, nothing written. -/
theorem acceptRide_of_not_driver (now : String) (user : User) (rideId : Id) (db : List Ride)
    (h : user.userType ≠ "driver") :
    acceptRide now user rideId db = ⟨db, .error 403 "Only drivers can accept rides", []⟩ := by
  simp [acceptRide, h]

/-- C1, at a store of one requested ride. -/
theorem accept_exclusive_witness :
    PrimaryKey [sampleRide] ∧
    (acceptRide "t2" ⟨"d2", "driver"⟩ "r1"
        (acceptRide "t1" ⟨"d1", "driver"⟩ "r1" [sampleRide]).db).reply =
      .error 400 "Ride not available or already accepted" :=
  ⟨by decide,
   (accept_exclusive [sampleRide] sampleRide ⟨"d1", "driver"⟩ ⟨"d2", "driver"⟩ "t1" "t2"
      (by decide) (by simp) rfl rfl rfl).2.1⟩

/-- C2 as stated fails: a stored ride in status requested that already has a
driver is accepted all the same, the handler filtering on the status alone. -/
theorem accept_ignores_driver_counterexample :
    (acceptRide "t1" ⟨"d2", "driver"⟩ "r1"
        [{ sampleRide with driver_id := some "d1" }]).reply.isSuccess = true ∧
    ¬ ∃ r ∈ [{ sampleRide with driver_id := some "d1" }],
        r.id = "r1" ∧ r.status = "requested" ∧ r.driver_id = none := by
  decide

/-- C2, amended. In a keyed store Accept succeeds exactly when the actor is a
driver and the stored ride has status requested (and then, if every requested
row of the store is without a driver, the accepted ride had none); every failed
Accept leaves the store as it was and emits no event. -/
theorem accept_guard (db : List Ride) (hpk : PrimaryKey db) (now : String) (user : User)
    (rideId : Id) :
    ((acceptRide now user rideId db).reply.isSuccess = true ↔
      (user.userType = "driver" ∧ ∃ r ∈ db, r.id = rideId ∧ r.status = "requested")) ∧
    ((acceptRide now user rideId db).reply.isSuccess = true →
      (∀ x ∈ db, x.status = "requested" → x.driver_id = none) →
      ∃ r ∈ db, r.id = rideId ∧ r.status = "requested" ∧ r.driver_id = none) ∧
    ((acceptRide now user rideId db).reply.isSuccess = false →
      (acceptRide now user rideId db).db = db ∧
      (acceptRide now user rideId db).emitted = []) := by
  by_cases hd : user.userType = "driver"
  · by_cases hex : ∃ r ∈ db, r.id = rideId ∧ r.status = "requested"
    · obtain ⟨r, hr, hid, hst⟩ := hex
      subst hid
      rw [acceptRide_of_requested hpk hr hst now user hd]
      refine ⟨?_, ?_, ?_⟩
      · simp only [Reply.isSuccess, true_iff]
        exact ⟨hd, r, hr, rfl, hst⟩
      · intro _ hinv
        exact ⟨r, hr, rfl, hst, hinv r hr hst⟩
      · intro h
        simp [Reply.isSuccess] at h
    · have hno : ∀ x ∈ db, x.id = rideId → x.status ≠ "requested" := by
        intro x hx hid hst
        exact hex ⟨x, hx, hid, hst⟩
      rw [acceptRide_of_no_match now user rideId hd hno]
      refine ⟨?_, ?_, ?_⟩
      · simp only [Reply.isSuccess]
        constructor
        · intro h
          cases h
        · rintro ⟨_, h⟩
          exact absurd h hex
      · intro h
        simp [Reply.isSuccess] at h
      · intro _
        exact ⟨rfl, rfl⟩
  · rw [acceptRide_of_not_driver now user rideId db hd]
    refine ⟨?_, ?_, ?_⟩
    · simp only [Reply.isSuccess]
      constructor
      · intro h
        cases h
      · rintro ⟨h, _⟩
        exact absurd h hd
    · intro h
      simp [Reply.isSuccess] at h
    · intro _
      exact ⟨rfl, rfl⟩

/-- C2 amended, at a store whose only ride is already accepted. -/
theorem accept_guard_witness :
    PrimaryKey [{ sampleRide with status := "accepted", driver_id := some "d1" }] ∧
    ((acceptRide "t1" ⟨"d2", "driver"⟩ "r1"
        [{ sampleRide with status := "accepted", driver_id := some "d1" }]).reply.isSuccess
        = false →
      (acceptRide "t1" ⟨"d2", "driver"⟩ "r1"
        [{ sampleRide with status := "accepted", driver_id := some "d1" }]).db =
        [{ sampleRide with status := "accepted", driver_id := some "d1" }] ∧
      (acceptRide "t1" ⟨"d2", "driver"⟩ "r1"
        [{ sampleRide with status := "accepted", driver_id := some "d1" }]).emitted = []) :=
  ⟨by decide,
   (accept_guard [{ sampleRide with status := "accepted", driver_id := some "d1" }]
      (by decide) "t1" ⟨"d2", "driver"⟩ "r1").2.2⟩

/-- The rewrite done by a successful Complete. -/
theorem completeRide_of_assigned {db : List Ride} (hpk : PrimaryKey db) {r : Ride}
    (hr : r ∈ db) (now : String) (user : User) (finalFare : Field)
    (hdrv : r.driver_id = some user.userId) :
    completeRide now user r.id finalFare db =
      ⟨db.map (fun x => if (x.id = r.id && x.driver_id = some user.userId) then
          { x with status := "completed", completed_at := some now,
                   final_fare := finalFareOrNull finalFare } else x),
        .ride 200 "Ride completed successfully"
          { r with status := "completed", completed_at := some now,
                   final_fare := finalFareOrNull finalFare },
        [⟨"rider-" ++ r.rider_id, "ride-completed",
            .rideCompleted r.id (finalFareOrNull finalFare) "completed"⟩]⟩ := by
  have hp : (fun x : Ride => (decide (x.id = r.id) &&
      decide (x.driver_id = some user.userId))) r = true := by simp [hdrv]
  have hfil := filter_eq_singleton hpk hr
    (fun x : Ride => (decide (x.id = r.id) && decide (x.driver_id = some user.userId))) hp
    (fun x hx => by simp at hx; exact hx.1)
  simp [completeRide, updateWhere, hfil, single]

/-- A failed Complete: no row matches and nothing is written. -/
theorem completeRide_of_no_match {db : List Ride} (now : String) (user : User) (rideId : Id)
    (finalFare : Field)
    (hno : ∀ x ∈ db, x.id = rideId → x.driver_id ≠ some user.userId) :
    completeRide now user rideId finalFare db =
      ⟨db, .error 400 "Failed to complete ride", []⟩ := by
  have hp : ∀ x ∈ db, (fun x : Ride => (decide (x.id = rideId) &&
      decide (x.driver_id = some user.userId))) x = false := by
    intro x hx
    by_cases h : x.id = rideId
    · simp [h, hno x hx h]
    · simp [h]
  have hfil : db.filter (fun x : Ride => (decide (x.id = rideId) &&
      decide (x.driver_id = some user.userId))) = [] := by
    rw [List.filter_eq_nil_iff]
    intro x hx
    simp [hp x hx]
  simp only [completeRide, updateWhere, hfil]
  rw [map_if_eq_self _ _ hp]
  simp [single]

/-- C3. In a keyed store Complete succeeds if and only if the stored ride's
driver is the caller. On success the row becomes completed (every other row is
kept) and exactly one ride-completed event goes to the room of the ride's
rider; for any other caller the reply is the 400 failure, the store is as it
was and no event is emitted. -/
theorem complete_iff_assigned_driver (db : List Ride) (hpk : PrimaryKey db) (now : String)
    (user : User) (rideId : Id) (finalFare : Field) :
    ((completeRide now user rideId finalFare db).reply.isSuccess = true ↔
      ∃ r ∈ db, r.id = rideId ∧ r.driver_id = some user.userId) ∧
    (∀ r ∈ db, r.id = rideId → r.driver_id = some user.userId →
      (completeRide now user rideId finalFare db).reply =
        .ride 200 "Ride completed successfully"
          { r with status := "completed", completed_at := some now,
                   final_fare := finalFareOrNull finalFare } ∧
      (completeRide now user rideId finalFare db).db =
        db.map (fun x => if x.id = rideId then
          { x with status := "completed", completed_at := some now,
                   final_fare := finalFareOrNull finalFare } else x) ∧
      (completeRide now user rideId finalFare db).emitted =
        [⟨"rider-" ++ r.rider_id, "ride-completed",
            .rideCompleted r.id (finalFareOrNull finalFare) "completed"⟩]) ∧
    ((∀ r ∈ db, r.id = rideId → r.driver_id ≠ some user.userId) →
      (completeRide now user rideId finalFare db).reply =
        .error 400 "Failed to complete ride" ∧
      (completeRide now user rideId finalFare db).db = db ∧
      (completeRide now user rideId finalFare db).emitted = []) := by
  refine ⟨?_, ?_, ?_⟩
  · by_cases hex : ∃ r ∈ db, r.id = rideId ∧ r.driver_id = some user.userId
    · obtain ⟨r, hr, hid, hdrv⟩ := hex
      subst hid
      rw [completeRide_of_assigned hpk hr now user finalFare hdrv]
      simp only [Reply.isSuccess, true_iff]
      exact ⟨r, hr, rfl, hdrv⟩
    · have hno : ∀ x ∈ db, x.id = rideId → x.driver_id ≠ some user.userId := by
        intro x hx hid hd
        exact hex ⟨x, hx, hid, hd⟩
      rw [completeRide_of_no_match now user rideId finalFare hno]
      simp only [Reply.isSuccess]
      constructor
      · intro h
        cases h
      · intro h
        exact absurd h hex
  · intro r hr hid hdrv
    subst hid
    rw [completeRide_of_assigned hpk hr now user finalFare hdrv]
    refine ⟨rfl, ?_, rfl⟩
    apply List.map_congr_left
    intro x hx
    by_cases hxid : x.id = r.id
    · have hxr : x = r := eq_of_id_eq hpk hr hx hxid
      simp [hxr, hdrv]
    · simp [hxid]
  · intro hno
    rw [completeRide_of_no_match now user rideId finalFare hno]
    exact ⟨rfl, rfl, rfl⟩

/-- C3, at a store whose ride is assigned to driver d1, completed by d1. -/
theorem complete_iff_assigned_driver_witness :
    PrimaryKey [{ sampleRide with status := "accepted", driver_id := some "d1" }] ∧
    ((completeRide "t2" ⟨"d1", "driver"⟩ "r1" .undefined
        [{ sampleRide with status := "accepted", driver_id := some "d1" }]).reply.isSuccess
        = true ↔
      ∃ r ∈ [{ sampleRide with status := "accepted", driver_id := some "d1" }],
        r.id = "r1" ∧ r.driver_id = some "d1") :=
  ⟨by decide,
   (complete_iff_assigned_driver
      [{ sampleRide with status := "accepted", driver_id := some "d1" }]
      (by decide) "t2" ⟨"d1", "driver"⟩ "r1" .undefined).1⟩

/-- After an id-preserving rewrite of a keyed table, the row with the id of an
old row `r` is the rewritten `r`. -/
theorem row_after_map {db : List Ride} (hpk : PrimaryKey db) (g : Ride → Ride)
    (hg : ∀ x, (g x).id = x.id) {r : Ride} (hr : r ∈ db) :
    g r ∈ db.map g ∧ ∀ x ∈ db.map g, x.id = r.id → x = g r := by
  refine ⟨List.mem_map.mpr ⟨r, hr, rfl⟩, ?_⟩
  intro x hx hid
  obtain ⟨y, hy, rfl⟩ := List.mem_map.mp hx
  rw [hg y] at hid
  rw [eq_of_id_eq hpk hr hy hid]

/-- The table Accept leaves behind is the table rewritten row by row. -/
theorem acceptRide_db (now : String) (user : User) (rideId : Id) (db : List Ride) :
    (acceptRide now user rideId db).db = db ∨
    (acceptRide now user rideId db).db =
      db.map (fun x => if (x.id = rideId && x.status = "requested") then
        { x with driver_id := some user.userId, status := "accepted",
                 accepted_at := some now } else x) := by
  unfold acceptRide
  by_cases hd : user.userType = "driver"
  · right
    simp only [hd, ne_eq, not_true_eq_false, if_false, updateWhere]
    split <;> rfl
  · left
    simp [hd]

/-- The table Complete leaves behind is the table rewritten row by row. -/
theorem completeRide_db (now : String) (user : User) (rideId : Id) (finalFare : Field)
    (db : List Ride) :
    (completeRide now user rideId finalFare db).db =
      db.map (fun x => if (x.id = rideId && x.driver_id = some user.userId) then
        { x with status := "completed", completed_at := some now,
                 final_fare := finalFareOrNull finalFare } else x) := by
  unfold completeRide
  simp only [updateWhere]
  split <;> rfl

/-- The table Create leaves behind: unchanged, or one new row with a fresh id,
status requested, no driver and no final fare. -/
theorem requestRide_db (M : MathImpl) (now : String) (generated : Option Id) (user : User)
    (body : RideRequestBody) (db : List Ride) :
    (requestRide M now generated user body db).db = db ∨
    ∃ row : Ride, (requestRide M now generated user body db).db = db ++ [row] ∧
      (∀ x ∈ db, x.id ≠ row.id) ∧ row.status = "requested" ∧ row.driver_id = none ∧
      row.final_fare = none ∧ row.accepted_at = none := by
  unfold requestRide
  by_cases hu : user.userType = "rider"
  · simp only [hu, ne_eq, not_true_eq_false, if_false]
    cases hp : body.pickupCoordinates with
    | none => left; rfl
    | some p =>
      cases hq : body.dropoffCoordinates with
      | none => left; rfl
      | some q =>
        cases generated with
        | none => left; rfl
        | some i =>
          by_cases hi : i ∈ db.map Ride.id
          · left
            simp [insertRow, hi]
          · right
            simp only [insertRow, hi, if_false]
            refine ⟨_, rfl, ?_, rfl, rfl, rfl, rfl⟩
            intro x hx hxi
            exact hi (List.mem_map.mpr ⟨x, hx, hxi⟩)
  · left
    simp [hu]

/-- C4 as stated fails: Complete takes an accepted ride straight to completed,
which is no edge of the lifecycle graph, and it takes a cancelled ride that has
a driver to completed as well. -/
theorem complete_not_a_lifecycle_edge_counterexample :
    (Call.complete "t2" ⟨"d1", "driver"⟩ "r1" .undefined).isRideHandler = true ∧
    ((Call.complete "t2" ⟨"d1", "driver"⟩ "r1" .undefined).run
        [{ sampleRide with status := "accepted", driver_id := some "d1" }]).db.map Ride.status
      = ["completed"] ∧
    lifecycleEdge "accepted" "completed" = false ∧
    ((Call.complete "t2" ⟨"d1", "driver"⟩ "r1" .undefined).run
        [{ sampleRide with status := "cancelled", driver_id := some "d1" }]).db.map Ride.status
      = ["completed"] := by
  decide

/-- C4, amended. For a call of Create, Accept or Complete on a keyed store,
every stored ride `r` is still stored afterwards under its id, once, and its
status is unchanged, or went from requested to accepted, or went to completed
while `r` had a driver assigned; a ride in status completed keeps that status,
and so does a cancelled ride without a driver. -/
theorem status_change_shape (c : Call) (hc : c.isRideHandler = true) (db : List Ride)
    (hpk : PrimaryKey db) (r : Ride) (hr : r ∈ db) :
    ∃ r1 ∈ (c.run db).db, r1.id = r.id ∧
      (∀ x ∈ (c.run db).db, x.id = r.id → x = r1) ∧
      (r1.status = r.status ∨ (r.status = "requested" ∧ r1.status = "accepted") ∨
        (r.driver_id.isSome = true ∧ r1.status = "completed")) ∧
      (r.status = "completed" → r1.status = "completed") ∧
      (r.status = "cancelled" → r.driver_id = none → r1.status = "cancelled") := by
  have hmain : ∃ r1 ∈ (c.run db).db, r1.id = r.id ∧
      (∀ x ∈ (c.run db).db, x.id = r.id → x = r1) ∧
      (r1.status = r.status ∨ (r.status = "requested" ∧ r1.status = "accepted") ∨
        (r.driver_id.isSome = true ∧ r1.status = "completed")) ∧
      (r.status = "completed" → r1.status = "completed") := by
    have hsame : ∀ db1 : List Ride, db1 = db → ∃ r1 ∈ db1, r1.id = r.id ∧
        (∀ x ∈ db1, x.id = r.id → x = r1) ∧
        (r1.status = r.status ∨ (r.status = "requested" ∧ r1.status = "accepted") ∨
          (r.driver_id.isSome = true ∧ r1.status = "completed")) ∧
        (r.status = "completed" → r1.status = "completed") := by
      intro db1 h
      subst h
      exact ⟨r, hr, rfl, fun x hx hid => eq_of_id_eq hpk hr hx hid, Or.inl rfl, fun h => h⟩
    cases c with
    | confirm stripe body => cases hc
    | request M now generated user body =>
      rcases requestRide_db M now generated user body db with h | ⟨row, h, hfresh, _⟩
      · exact hsame _ h
      · simp only [Call.run]
        rw [h]
        refine ⟨r, List.mem_append_left _ hr, rfl, ?_, Or.inl rfl, fun h => h⟩
        intro x hx hid
        rcases List.mem_append.mp hx with hx | hx
        · exact eq_of_id_eq hpk hr hx hid
        · rw [List.mem_singleton] at hx
          subst hx
          exact absurd hid.symm (hfresh r hr)
    | accept now user rideId =>
      rcases acceptRide_db now user rideId db with h | h
      · exact hsame _ h
      · simp only [Call.run]
        rw [h]
        have hg : ∀ x : Ride, (if (x.id = rideId && x.status = "requested") then
            { x with driver_id := some user.userId, status := "accepted",
                     accepted_at := some now } else x).id = x.id := by
          intro x
          split <;> rfl
        obtain ⟨hmem, huniq⟩ := row_after_map hpk _ hg hr
        refine ⟨_, hmem, hg r, huniq, ?_, ?_⟩
        · by_cases hp : (r.id = rideId && r.status = "requested") = true
          · right; left
            simp only [hp, if_true]
            simp only [Bool.and_eq_true, decide_eq_true_eq] at hp
            exact ⟨hp.2, trivial⟩
          · left
            simp only [hp, if_false]
            trivial
        · intro hcomp
          have hp : ¬ (r.id = rideId && r.status = "requested") = true := by
            simp [hcomp]
          simp only [hp, if_false]
          exact hcomp
    | complete now user rideId finalFare =>
      simp only [Call.run]
      rw [completeRide_db now user rideId finalFare db]
      have hg : ∀ x : Ride, (if (x.id = rideId && x.driver_id = some user.userId) then
          { x with status := "completed", completed_at := some now,
                   final_fare := finalFareOrNull finalFare } else x).id = x.id := by
        intro x
        split <;> rfl
      obtain ⟨hmem, huniq⟩ := row_after_map hpk _ hg hr
      refine ⟨_, hmem, hg r, huniq, ?_, ?_⟩
      · by_cases hp : (r.id = rideId && r.driver_id = some user.userId) = true
        · right; right
          simp only [hp, if_true]
          simp only [Bool.and_eq_true, decide_eq_true_eq] at hp
          simp [hp.2]
        · left
          simp only [hp, if_false]
          trivial
      · intro hcomp
        split
        · rfl
        · exact hcomp
  obtain ⟨r1, hmem, hid, huniq, hshape, hcomp⟩ := hmain
  refine ⟨r1, hmem, hid, huniq, hshape, hcomp, ?_⟩
  intro hcan hnone
  rcases hshape with h | ⟨h, _⟩ | ⟨h, _⟩
  · rw [h, hcan]
  · rw [hcan] at h
    exact absurd h (by decide)
  · rw [hnone] at h
    exact absurd h (by decide)

/-- C4 amended, at a completed ride and a further Complete call by its driver. -/
theorem status_change_shape_witness :
    PrimaryKey [{ sampleRide with status := "completed", driver_id := some "d1" }] ∧
    ∃ r1 ∈ ((Call.complete "t3" ⟨"d1", "driver"⟩ "r1" .null).run
        [{ sampleRide with status := "completed", driver_id := some "d1" }]).db,
      r1.id = "r1" ∧ r1.status = "completed" := by
  refine ⟨by decide, ?_⟩
  obtain ⟨r1, hmem, hid, _, _, hkeep, _⟩ :=
    status_change_shape (Call.complete "t3" ⟨"d1", "driver"⟩ "r1" .null) rfl
      [{ sampleRide with status := "completed", driver_id := some "d1" }] (by decide)
      { sampleRide with status := "completed", driver_id := some "d1" } (by simp)
  exact ⟨r1, hmem, hid, hkeep rfl⟩

/-- C5. The driver invariant is inductive for Create, Accept and Complete: if
every stored ride satisfies it before a call, whatever the actor and the
arguments, every stored ride satisfies it after the call. -/
theorem driverInvariant_preserved (c : Call) (hc : c.isRideHandler = true) (db : List Ride)
    (hinv : ∀ r ∈ db, DriverInvariant r) :
    ∀ r ∈ (c.run db).db, DriverInvariant r := by
  cases c with
  | confirm stripe body => cases hc
  | request M now generated user body =>
    rcases requestRide_db M now generated user body db with h | ⟨row, h, _, hst, hdrv, _, hacc⟩
    · simp only [Call.run]
      rw [h]
      exact hinv
    · simp only [Call.run]
      rw [h]
      intro r hr
      rcases List.mem_append.mp hr with hr | hr
      · exact hinv r hr
      · rw [List.mem_singleton] at hr
        subst hr
        simp [DriverInvariant, cancelledAfterAccept, hst, hdrv]
  | accept now user rideId =>
    rcases acceptRide_db now user rideId db with h | h
    · simp only [Call.run]
      rw [h]
      exact hinv
    · simp only [Call.run]
      rw [h]
      intro r hr
      obtain ⟨y, hy, rfl⟩ := List.mem_map.mp hr
      split
      · simp [DriverInvariant]
      · exact hinv y hy
  | complete now user rideId finalFare =>
    simp only [Call.run]
    rw [completeRide_db now user rideId finalFare db]
    intro r hr
    obtain ⟨y, hy, rfl⟩ := List.mem_map.mp hr
    split
    · rename_i hp
      simp only [Bool.and_eq_true, decide_eq_true_eq] at hp
      simp [DriverInvariant, hp.2]
    · exact hinv y hy

/-- C5, at a store of one requested ride accepted by a driver. -/
theorem driverInvariant_preserved_witness :
    (∀ r ∈ [sampleRide], DriverInvariant r) ∧
    ∀ r ∈ ((Call.accept "t1" ⟨"d1", "driver"⟩ "r1").run [sampleRide]).db,
      DriverInvariant r :=
  ⟨by decide,
   driverInvariant_preserved (Call.accept "t1" ⟨"d1", "driver"⟩ "r1") rfl [sampleRide]
     (by decide)⟩

/-- C6 at its failing input: confirm-payment with method cash on a ride that is
still requested writes the final fare, so the final-fare invariant, true of
the store before the call, is false after it. -/
theorem confirmPayment_sets_final_fare_early :
    (∀ r ∈ [sampleRide], FinalFareInvariant r) ∧
    ((Call.confirm (fun _ => none) ⟨none, "r1", some "cash", .number (num 10)⟩).run
        [sampleRide]).db.map (fun r => (r.status, r.final_fare)) =
      [("requested", some 10)] ∧
    ¬ ∀ r ∈ ((Call.confirm (fun _ => none) ⟨none, "r1", some "cash", .number (num 10)⟩).run
        [sampleRide]).db, FinalFareInvariant r := by
  decide

/-- The three handlers of `rides.js` do keep the final-fare invariant. -/
theorem finalFareInvariant_preserved_by_rides (c : Call) (hc : c.isRideHandler = true)
    (db : List Ride) (hinv : ∀ r ∈ db, FinalFareInvariant r) :
    ∀ r ∈ (c.run db).db, FinalFareInvariant r := by
  cases c with
  | confirm stripe body => cases hc
  | request M now generated user body =>
    rcases requestRide_db M now generated user body db with h | ⟨row, h, _, _, _, hff, _⟩
    · simp only [Call.run]
      rw [h]
      exact hinv
    · simp only [Call.run]
      rw [h]
      intro r hr
      rcases List.mem_append.mp hr with hr | hr
      · exact hinv r hr
      · rw [List.mem_singleton] at hr
        subst hr
        simp [FinalFareInvariant, hff]
  | accept now user rideId =>
    rcases acceptRide_db now user rideId db with h | h
    · simp only [Call.run]
      rw [h]
      exact hinv
    · simp only [Call.run]
      rw [h]
      intro r hr
      obtain ⟨y, hy, rfl⟩ := List.mem_map.mp hr
      split
      · rename_i hp
        simp only [Bool.and_eq_true, decide_eq_true_eq] at hp
        intro hsome
        have := hinv y hy hsome
        rw [hp.2] at this
        exact absurd this (by decide)
      · exact hinv y hy
  | complete now user rideId finalFare =>
    simp only [Call.run]
    rw [completeRide_db now user rideId finalFare db]
    intro r hr
    obtain ⟨y, hy, rfl⟩ := List.mem_map.mp hr
    split
    · intro _
      rfl
    · exact hinv y hy

/-! ## Lemmas on binary64 rounding -/

/-- What `roundHalfEven` returns: a nearest integer, the even one at a tie. -/
theorem roundHalfEven_spec (x : ℚ) :
    |x - (roundHalfEven x : ℚ)| < 1 / 2 ∨
    (|x - (roundHalfEven x : ℚ)| = 1 / 2 ∧ roundHalfEven x % 2 = 0) := by
  have h1 : (⌊x⌋ : ℚ) ≤ x := Int.floor_le x
  have h2 : x < (⌊x⌋ : ℚ) + 1 := Int.lt_floor_add_one x
  unfold roundHalfEven
  split_ifs with ha hb hc
  · left
    rw [abs_lt]
    constructor <;> linarith
  · left
    rw [abs_lt]
    push_cast
    constructor <;> linarith
  · right
    have he : x - (⌊x⌋ : ℚ) = 1 / 2 := le_antisymm (not_lt.mp hb) (not_lt.mp ha)
    refine ⟨?_, hc⟩
    rw [he]
    norm_num
  · right
    have he : x - (⌊x⌋ : ℚ) = 1 / 2 := le_antisymm (not_lt.mp hb) (not_lt.mp ha)
    constructor
    · push_cast
      have : x - ((⌊x⌋ : ℚ) + 1) = -(1 / 2) := by linarith
      rw [this]
      norm_num
    · omega

/-- The integer described by `roundHalfEven_spec` is unique. -/
theorem roundHalfEven_unique (x : ℚ) (m : ℤ)
    (h : |x - (m : ℚ)| < 1 / 2 ∨ (|x - (m : ℚ)| = 1 / 2 ∧ m % 2 = 0)) :
    roundHalfEven x = m := by
  have h1 : (⌊x⌋ : ℚ) ≤ x := Int.floor_le x
  have h2 : x < (⌊x⌋ : ℚ) + 1 := Int.lt_floor_add_one x
  have hle : |x - (m : ℚ)| ≤ 1 / 2 := by
    rcases h with h | h
    · exact le_of_lt h
    · exact le_of_eq h.1
  have hb := abs_le.mp hle
  have hf1 : ⌊x⌋ ≤ m := by
    have : (⌊x⌋ : ℚ) < (m : ℚ) + 1 := by linarith [hb.2]
    have : ⌊x⌋ < m + 1 := by exact_mod_cast this
    omega
  have hf2 : m - 1 ≤ ⌊x⌋ := by
    have : (m : ℚ) - 2 < (⌊x⌋ : ℚ) := by linarith [hb.1]
    have : m - 2 < ⌊x⌋ := by exact_mod_cast this
    omega
  have hcase : ⌊x⌋ = m ∨ ⌊x⌋ = m - 1 := by omega
  unfold roundHalfEven
  rcases hcase with hfm | hfm
  · have hq : (⌊x⌋ : ℚ) = (m : ℚ) := by exact_mod_cast hfm
    split_ifs with ha hb2 hc
    · exact hfm
    · exfalso
      rw [hq] at hb2
      linarith [hb.2]
    · exact hfm
    · exfalso
      have he : x - (m : ℚ) = 1 / 2 := by
        rw [hq] at ha hb2
        exact le_antisymm (not_lt.mp hb2) (not_lt.mp ha)
      rcases h with h | h
      · rw [he] at h
        rw [abs_lt] at h
        norm_num at h
      · omega
  · have hq : (⌊x⌋ : ℚ) = (m : ℚ) - 1 := by
      have : (⌊x⌋ : ℚ) = ((m - 1 : ℤ) : ℚ) := by exact_mod_cast hfm
      rw [this]
      push_cast
      ring
    split_ifs with ha hb2 hc
    · exfalso
      rw [hq] at ha
      have hx : x - (m : ℚ) < -(1 / 2) := by linarith
      linarith [hb.1]
    · omega
    · exfalso
      have he : x - (m : ℚ) = -(1 / 2) := by
        rw [hq] at ha hb2
        have := le_antisymm (not_lt.mp hb2) (not_lt.mp ha)
        linarith
      rcases h with h | h
      · rw [he] at h
        rw [abs_lt] at h
        norm_num at h
      · omega
    · omega

/-- Rounding to nearest-even commutes with negation. -/
theorem roundHalfEven_neg (x : ℚ) : roundHalfEven (-x) = -roundHalfEven x := by
  apply roundHalfEven_unique
  have h : -x - ((-roundHalfEven x : ℤ) : ℚ) = -(x - (roundHalfEven x : ℚ)) := by
    push_cast
    ring
  rw [h, abs_neg]
  rcases roundHalfEven_spec x with hs | hs
  · left
    exact hs
  · right
    refine ⟨hs.1, ?_⟩
    omega

/-- The rounded integer is within one half. -/
theorem roundHalfEven_close (x : ℚ) : |x - (roundHalfEven x : ℚ)| ≤ 1 / 2 := by
  rcases roundHalfEven_spec x with hs | hs
  · exact le_of_lt hs
  · exact le_of_eq hs.1

/-- Zero is a binary64 value. -/
theorem fl_zero : fl 0 = num 0 := by
  have h0 : roundHalfEven (0 : ℚ) = 0 := by
    apply roundHalfEven_unique
    left
    norm_num
  unfold fl
  simp only [zero_div, h0, Int.cast_zero, zero_mul, abs_zero]
  have : ¬ ((2 : ℚ) ^ (1024 : ℤ) ≤ 0) := not_le.mpr (by positivity)
  rw [if_neg this]

/-- The exponent of the last place does not depend on the sign. -/
theorem ulpExp_neg (q : ℚ) : ulpExp (-q) = ulpExp q := by
  unfold ulpExp
  rw [abs_neg]

/-- Rounding to binary64 commutes with negation. -/
theorem fl_neg (q : ℚ) : fl (-q) = neg (fl q) := by
  by_cases hq : q = 0
  · subst hq
    simp [fl_zero, neg]
  · unfold fl
    rw [ulpExp_neg, neg_div, roundHalfEven_neg]
    have habs : |((-roundHalfEven (q / 2 ^ ulpExp q) : ℤ) : ℚ) * 2 ^ ulpExp q| =
        |(roundHalfEven (q / 2 ^ ulpExp q) : ℚ) * 2 ^ ulpExp q| := by
      push_cast
      rw [neg_mul, abs_neg]
    rw [habs]
    by_cases hov : (2 : ℚ) ^ (1024 : ℤ) ≤ |(roundHalfEven (q / 2 ^ ulpExp q) : ℚ) * 2 ^ ulpExp q|
    · rw [if_pos hov, if_pos hov]
      rcases lt_or_gt_of_ne hq with hneg | hpos
      · have h1 : (0 : ℚ) < -q := by linarith
        have h2 : ¬ (0 : ℚ) < q := by linarith
        rw [if_pos h1, if_neg h2]
        rfl
      · have h1 : ¬ (0 : ℚ) < -q := by linarith
        rw [if_neg h1, if_pos hpos]
        rfl
    · rw [if_neg hov, if_neg hov]
      simp only [neg]
      push_cast
      rw [neg_mul]

/-- The binary logarithm of a rational in a known binade. -/
theorem log_of_binade (q : ℚ) (k : ℤ) (hlo : (2 : ℚ) ^ k ≤ q) (hhi : q < (2 : ℚ) ^ (k + 1)) :
    Int.log 2 q = k := by
  have hpos : 0 < q := lt_of_lt_of_le (by positivity) hlo
  have h1 : k ≤ Int.log 2 q := by
    rw [← Int.zpow_le_iff_le_log (by norm_num) hpos]
    exact_mod_cast hlo
  have h2 : Int.log 2 q < k + 1 := by
    rw [← Int.lt_zpow_iff_log_lt (by norm_num) hpos]
    exact_mod_cast hhi
  omega

/-- The binary64 value of a positive rational `q` in the normal binade
`[2 ^ k, 2 ^ (k + 1))`: the multiple `m * 2 ^ (k - 52)` strictly nearest to it. -/
theorem fl_eq_of (q : ℚ) (k m : ℤ) (hk : -1022 ≤ k) (hlo : (2 : ℚ) ^ k ≤ q)
    (hhi : q < (2 : ℚ) ^ (k + 1))
    (hm1 : ((m : ℚ) - 1 / 2) * 2 ^ (k - 52) < q) (hm2 : q < ((m : ℚ) + 1 / 2) * 2 ^ (k - 52))
    (hfin : (m : ℚ) * 2 ^ (k - 52) < 2 ^ (1024 : ℤ)) :
    fl q = num ((m : ℚ) * 2 ^ (k - 52)) := by
  have hpos : 0 < q := lt_of_lt_of_le (by positivity) hlo
  have he : ulpExp q = k - 52 := by
    unfold ulpExp
    rw [abs_of_pos hpos, log_of_binade q k hlo hhi, max_eq_left hk]
  have hp : (0 : ℚ) < 2 ^ (k - 52) := by positivity
  have hr : roundHalfEven (q / 2 ^ (k - 52)) = m := by
    apply roundHalfEven_unique
    left
    rw [abs_lt]
    constructor
    · rw [lt_sub_iff_add_lt, lt_div_iff₀ hp]
      linarith
    · rw [sub_lt_iff_lt_add, div_lt_iff₀ hp]
      linarith
  have hmpos : (0 : ℚ) ≤ (m : ℚ) * 2 ^ (k - 52) := by
    by_contra hneg
    push_neg at hneg
    have hm0 : (m : ℚ) < 0 := by
      by_contra h
      push_neg at h
      have := mul_nonneg h (le_of_lt hp)
      linarith
    have hm1' : (m : ℚ) ≤ -1 := by
      have : m < 0 := by exact_mod_cast hm0
      have : m ≤ -1 := by omega
      exact_mod_cast this
    have : ((m : ℚ) + 1 / 2) * 2 ^ (k - 52) < 0 := by
      apply mul_neg_of_neg_of_pos _ hp
      linarith
    linarith
  unfold fl
  rw [he, hr, abs_of_nonneg hmpos, if_neg (not_le.mpr hfin)]

/-- The rounding error for a rational below `2 ^ (k + 1)` in magnitude: at
most half a unit in the last place of that binade, and no overflow. -/
theorem fl_error (q : ℚ) (k : ℤ) (hk1 : -1022 ≤ k) (hk2 : k ≤ 1022)
    (hq : |q| < (2 : ℚ) ^ (k + 1)) :
    ∃ r : ℚ, fl q = num r ∧ |r - q| ≤ 2 ^ (k - 53) := by
  by_cases h0 : q = 0
  · subst h0
    exact ⟨0, fl_zero, by simp; positivity⟩
  · have hpos : 0 < |q| := abs_pos.mpr h0
    have hlog : Int.log 2 |q| < k + 1 := by
      rw [← Int.lt_zpow_iff_log_lt (by norm_num) hpos]
      exact_mod_cast hq
    have he : ulpExp q ≤ k - 52 := by
      unfold ulpExp
      have : max (Int.log 2 |q|) (-1022) ≤ k := max_le (by omega) hk1
      omega
    have hp : (0 : ℚ) < 2 ^ ulpExp q := by positivity
    have hclose := roundHalfEven_close (q / 2 ^ ulpExp q)
    have herr : |(roundHalfEven (q / 2 ^ ulpExp q) : ℚ) * 2 ^ ulpExp q - q| ≤
        2 ^ (k - 53) := by
      have h1 : (roundHalfEven (q / 2 ^ ulpExp q) : ℚ) * 2 ^ ulpExp q - q =
          -((q / 2 ^ ulpExp q - (roundHalfEven (q / 2 ^ ulpExp q) : ℚ)) * 2 ^ ulpExp q) := by
        rw [sub_mul, div_mul_cancel₀ q (ne_of_gt hp)]
        ring
      rw [h1, abs_neg, abs_mul, abs_of_pos hp]
      have h2 : (2 : ℚ) ^ ulpExp q ≤ 2 ^ (k - 52) :=
        zpow_le_zpow_right₀ (by norm_num) he
      have h3 : (2 : ℚ) ^ (k - 53) = 1 / 2 * 2 ^ (k - 52) := by
        rw [show k - 52 = (k - 53) + 1 by ring, zpow_add_one₀ (by norm_num)]
        ring
      rw [h3]
      exact mul_le_mul hclose h2 (le_of_lt hp) (by norm_num)
    refine ⟨(roundHalfEven (q / 2 ^ ulpExp q) : ℚ) * 2 ^ ulpExp q, ?_, herr⟩
    unfold fl
    have hfin : ¬ ((2 : ℚ) ^ (1024 : ℤ) ≤
        |(roundHalfEven (q / 2 ^ ulpExp q) : ℚ) * 2 ^ ulpExp q|) := by
      rw [not_le]
      have h4 : |(roundHalfEven (q / 2 ^ ulpExp q) : ℚ) * 2 ^ ulpExp q| ≤
          |q| + 2 ^ (k - 53) := by
        have := abs_sub_abs_le_abs_sub
          ((roundHalfEven (q / 2 ^ ulpExp q) : ℚ) * 2 ^ ulpExp q) q
        linarith
      have h5 : (2 : ℚ) ^ (k - 53) ≤ 2 ^ (k + 1) :=
        zpow_le_zpow_right₀ (by norm_num) (by omega)
      have h6 : (2 : ℚ) ^ (k + 1) + 2 ^ (k + 1) = 2 ^ (k + 2) := by
        rw [show k + 2 = (k + 1) + 1 by ring, zpow_add_one₀ (by norm_num) (k + 1)]
        ring
      have h7 : (2 : ℚ) ^ (k + 2) ≤ 2 ^ (1024 : ℤ) :=
        zpow_le_zpow_right₀ (by norm_num) (by omega)
      linarith
    rw [if_neg hfin]

/-! ## Sign symmetries of the Number operators -/

theorem neg_neg_num (x : JSNum) : neg (neg x) = x := by
  cases x <;> simp [neg]

theorem add_swap (x y : JSNum) : add x y = add y x := by
  cases x <;> cases y <;> simp [add, add_comm]

theorem neg_add_num (x y : JSNum) : neg (add x y) = add (neg x) (neg y) := by
  cases x <;> cases y <;> try (simp [add, neg]; done)
  rename_i a b
  show neg (fl (a + b)) = fl (-a + -b)
  rw [← fl_neg]
  congr 1
  ring

/-- Swapping the operands of a subtraction negates the result. -/
theorem sub_swap (x y : JSNum) : sub y x = neg (sub x y) := by
  unfold sub
  rw [neg_add_num, neg_neg_num, add_swap]

theorem mul_swap (x y : JSNum) : mul x y = mul y x := by
  cases x <;> cases y <;> simp [mul, mul_comm]

theorem mul_neg_left (x y : JSNum) : mul (neg x) y = neg (mul x y) := by
  cases x <;> cases y <;> try (simp [mul, neg]; done)
  all_goals simp only [mul, neg]
  · rename_i b
    by_cases h0 : b = 0
    · simp [h0]
    · by_cases hp : 0 < b <;> simp [h0, hp]
  · rename_i b
    by_cases h0 : b = 0
    · simp [h0]
    · by_cases hp : 0 < b <;> simp [h0, hp]
  · rename_i a
    by_cases h0 : a = 0
    · simp [h0]
    · rcases lt_or_gt_of_ne h0 with hn | hp
      · have h1 : ¬ 0 < a := by linarith
        simp [h0, hn, h1]
      · have h1 : ¬ a < 0 := by linarith
        simp [h0, hp, h1]
  · rename_i a
    by_cases h0 : a = 0
    · simp [h0]
    · rcases lt_or_gt_of_ne h0 with hn | hp
      · have h1 : ¬ 0 < a := by linarith
        simp [h0, hn, h1]
      · have h1 : ¬ a < 0 := by linarith
        simp [h0, hp, h1]
  · rename_i a b
    show fl (-a * b) = neg (fl (a * b))
    rw [← fl_neg]
    congr 1
    ring

theorem mul_neg_neg (x y : JSNum) : mul (neg x) (neg y) = mul x y := by
  rw [mul_neg_left, mul_swap x (neg y), mul_neg_left, neg_neg_num, mul_swap]

theorem div_neg_left (x : JSNum) (b : ℚ) (hb : 0 < b) :
    div (neg x) (num b) = neg (div x (num b)) := by
  have h1 : ¬ b < 0 := by linarith
  have h2 : b ≠ 0 := ne_of_gt hb
  cases x <;> try (simp [div, neg, h1, h2]; done)
  rename_i a
  show div (num (-a)) (num b) = neg (div (num a) (num b))
  simp only [div, h2, if_false]
  rw [← fl_neg]
  congr 1
  ring

theorem toRad_neg (x : JSNum) : toRad (neg x) = neg (toRad x) := by
  unfold toRad Math_PI
  rw [mul_neg_left, div_neg_left _ _ (by norm_num)]

/-! ## `calculateDistance`: symmetry and the diagonal -/

/-- One is a binary64 value. -/
theorem fl_one : fl 1 = num 1 := by
  have h := fl_eq_of 1 0 (2 ^ 52) (by norm_num) (by norm_num) (by norm_num)
    (by norm_num) (by norm_num) (by norm_num)
  rw [h]
  congr 1
  norm_num

/-- A rounded value stays below the next power of two. -/
theorem fl_bound (q : ℚ) (k : ℤ) (hk1 : -1022 ≤ k) (hk2 : k ≤ 1022)
    (hq : |q| < (2 : ℚ) ^ (k + 1)) :
    ∃ r : ℚ, fl q = num r ∧ |r| < 2 ^ (k + 2) := by
  obtain ⟨r, hr, herr⟩ := fl_error q k hk1 hk2 hq
  refine ⟨r, hr, ?_⟩
  have h1 := abs_sub_abs_le_abs_sub r q
  have h5 : (2 : ℚ) ^ (k - 53) ≤ 2 ^ (k + 1) :=
    zpow_le_zpow_right₀ (by norm_num) (by omega)
  have h6 : (2 : ℚ) ^ (k + 1) + 2 ^ (k + 1) = 2 ^ (k + 2) := by
    rw [show k + 2 = (k + 1) + 1 by ring, zpow_add_one₀ (by norm_num) (k + 1)]
    ring
  linarith

theorem mul_neg_right (x y : JSNum) : mul x (neg y) = neg (mul x y) := by
  rw [mul_swap, mul_neg_left, mul_swap]

/-- Degrees of magnitude up to `2 ^ 1000` convert to a finite angle. -/
theorem toRad_finite (q : ℚ) (hq : |q| ≤ 2 ^ (1000 : ℤ)) : ∃ r : ℚ, toRad (num q) = num r := by
  unfold toRad Math_PI
  simp only [mul]
  have h1 : |q * (884279719003555 / 281474976710656)| < (2 : ℚ) ^ ((1002 : ℤ) + 1) := by
    rw [abs_mul]
    have : |(884279719003555 / 281474976710656 : ℚ)| ≤ 4 := by
      rw [abs_le]
      constructor <;> norm_num
    calc |q| * |(884279719003555 / 281474976710656 : ℚ)|
        ≤ 2 ^ (1000 : ℤ) * 4 := mul_le_mul hq this (abs_nonneg _) (by positivity)
      _ < (2 : ℚ) ^ ((1002 : ℤ) + 1) := by norm_num
  obtain ⟨r1, hr1, hr1b⟩ := fl_bound _ 1002 (by norm_num) (by norm_num) h1
  rw [hr1]
  simp only [div]
  rw [if_neg (by norm_num)]
  have h2 : |r1 / 180| < (2 : ℚ) ^ ((1003 : ℤ) + 1) := by
    rw [abs_div, abs_of_pos (show (0 : ℚ) < 180 by norm_num), div_lt_iff₀ (by norm_num)]
    have h3 : (2 : ℚ) ^ ((1003 : ℤ) + 1) = 2 ^ ((1002 : ℤ) + 2) := by norm_num
    rw [h3]
    have h4 : (0 : ℚ) < 2 ^ ((1002 : ℤ) + 2) := by positivity
    nlinarith
  obtain ⟨r2, hr2, _⟩ := fl_error _ 1003 (by norm_num) (by norm_num) h2
  exact ⟨r2, hr2⟩

/-- C8. For an engine with the symmetry and the exact values of `MathExact`
(an odd sine, `sin 0 = 0`, a finite cosine, `sqrt 0 = 0`, `sqrt 1 = 1`,
`atan2(0, 1) = 0`), `calculateDistance` returns the same Number for `(a, b)` and
for `(b, a)`, whatever the coordinates, and the distance from a point with
finite coordinates (latitude of magnitude at most `2 ^ 1000`) to itself is `0`. -/
theorem calculateDistance_symm_and_diag (M : MathImpl) (hM : MathExact M) :
    (∀ a b : Coord, calculateDistance M a b = calculateDistance M b a) ∧
    (∀ lat lng : ℚ, |lat| ≤ 2 ^ (1000 : ℤ) →
      calculateDistance M ⟨num lat, num lng⟩ ⟨num lat, num lng⟩ = num 0) := by
  constructor
  · intro a b
    unfold calculateDistance
    simp only
    have h2 : (0 : ℚ) < 2 := by norm_num
    rw [sub_swap b.lat a.lat, sub_swap b.lng a.lng]
    simp only [toRad_neg, div_neg_left _ 2 h2, hM.sin_odd, mul_neg_right, mul_neg_neg,
      mul_neg_left, neg_neg_num]
    rw [mul_swap (M.cos (toRad b.lat)) (M.cos (toRad a.lat))]
  · intro lat lng hlat
    have hsub : ∀ q : ℚ, sub (num q) (num q) = num 0 := by
      intro q
      simp only [sub, neg, add]
      rw [add_neg_cancel, fl_zero]
    have hrad0 : toRad (num 0) = num 0 := by
      unfold toRad Math_PI
      simp only [mul, zero_mul, fl_zero, div]
      rw [if_neg (by norm_num), zero_div, fl_zero]
    have hhalf0 : div (num 0) (num 2) = num 0 := by
      simp only [div]
      rw [if_neg (by norm_num), zero_div, fl_zero]
    have hmul0 : ∀ q : ℚ, mul (num q) (num 0) = num 0 := by
      intro q
      simp only [mul, mul_zero, fl_zero]
    obtain ⟨r, hr⟩ := toRad_finite lat hlat
    obtain ⟨c, hc, hcb⟩ := hM.cos_range r
    have hcc : ∃ c2 : ℚ, mul (num c) (num c) = num c2 := by
      simp only [mul]
      have hb : |c * c| < (2 : ℚ) ^ ((0 : ℤ) + 1) := by
        have h1 : |c * c| ≤ 1 * 1 := by
          rw [abs_mul]
          exact mul_le_mul hcb hcb (abs_nonneg _) (by norm_num)
        have h2 : (2 : ℚ) ^ ((0 : ℤ) + 1) = 2 := by norm_num
        rw [h2]
        linarith
      obtain ⟨c2, hc2, _⟩ := fl_error _ 0 (by norm_num) (by norm_num) hb
      exact ⟨c2, hc2⟩
    obtain ⟨c2, hc2⟩ := hcc
    have hone : sub (num 1) (num 0) = num 1 := by
      simp only [sub, neg, add, neg_zero, add_zero, fl_one]
    unfold calculateDistance
    simp only [hsub, hrad0, hhalf0, hM.sin_zero, hmul0, hr, hc, hc2]
    have hadd : add (num 0) (num 0) = num 0 := by
      simp only [add, add_zero, fl_zero]
    rw [hadd, hM.sqrt_zero, hone, hM.sqrt_one, hM.atan2_zero_one, hmul0, hmul0]
    have hz : mul (num 0) (num 100) = num 0 := by
      simp only [mul, zero_mul, fl_zero]
    rw [hz]
    have hround : JSNum.round (num 0) = num 0 := by
      simp only [JSNum.round]
      norm_num
    rw [hround]
    simp only [div]
    rw [if_neg (by norm_num), zero_div, fl_zero]

/-- Rounding does not cross a power of two: a rational of magnitude at most
`2 ^ j` rounds to a binary64 value of magnitude at most `2 ^ j`. -/
theorem fl_le_pow (q : ℚ) (j : ℤ) (hj1 : -1022 ≤ j) (hj2 : j ≤ 1022)
    (hq : |q| ≤ (2 : ℚ) ^ j) : ∃ r : ℚ, fl q = num r ∧ |r| ≤ 2 ^ j := by
  by_cases h0 : q = 0
  · subst h0
    exact ⟨0, fl_zero, by simp; positivity⟩
  · have hpos : 0 < |q| := abs_pos.mpr h0
    have hlt : |q| < (2 : ℚ) ^ (j + 1) :=
      lt_of_le_of_lt hq (zpow_lt_zpow_right₀ (by norm_num) (by omega))
    have hlog : Int.log 2 |q| < j + 1 := by
      rw [← Int.lt_zpow_iff_log_lt (by norm_num) hpos]
      exact_mod_cast hlt
    have he : ulpExp q ≤ j - 52 := by
      unfold ulpExp
      have : max (Int.log 2 |q|) (-1022) ≤ j := max_le (by omega) hj1
      omega
    have hp : (0 : ℚ) < 2 ^ ulpExp q := by positivity
    obtain ⟨n, hn⟩ : ∃ n : ℕ, j = ulpExp q + (n : ℤ) :=
      ⟨(j - ulpExp q).toNat, by rw [Int.toNat_of_nonneg (by omega)]; ring⟩
    have hpow : (2 : ℚ) ^ j = ((2 ^ n : ℤ) : ℚ) * 2 ^ ulpExp q := by
      rw [hn, zpow_add₀ (by norm_num), zpow_natCast]
      push_cast
      ring
    have hx : |q / 2 ^ ulpExp q| ≤ ((2 ^ n : ℤ) : ℚ) := by
      rw [abs_div, abs_of_pos hp, div_le_iff₀ hp, ← hpow]
      exact hq
    have hclose := roundHalfEven_close (q / 2 ^ ulpExp q)
    have hm : |(roundHalfEven (q / 2 ^ ulpExp q) : ℚ)| ≤ ((2 ^ n : ℤ) : ℚ) := by
      have hx2 := abs_le.mp hx
      have hc2 := abs_le.mp hclose
      have h1 : roundHalfEven (q / 2 ^ ulpExp q) < 2 ^ n + 1 := by
        have : (roundHalfEven (q / 2 ^ ulpExp q) : ℚ) < ((2 ^ n + 1 : ℤ) : ℚ) := by
          push_cast
          push_cast at hx2
          linarith [hx2.2, hc2.1]
        exact_mod_cast this
      have h2 : -(2 ^ n) - 1 < roundHalfEven (q / 2 ^ ulpExp q) := by
        have : ((-(2 ^ n) - 1 : ℤ) : ℚ) < (roundHalfEven (q / 2 ^ ulpExp q) : ℚ) := by
          push_cast
          push_cast at hx2
          linarith [hx2.1, hc2.2]
        exact_mod_cast this
      rw [abs_le]
      constructor
      · have : -(2 ^ n : ℤ) ≤ roundHalfEven (q / 2 ^ ulpExp q) := by omega
        exact_mod_cast this
      · have : roundHalfEven (q / 2 ^ ulpExp q) ≤ (2 ^ n : ℤ) := by omega
        exact_mod_cast this
    have hr : |(roundHalfEven (q / 2 ^ ulpExp q) : ℚ) * 2 ^ ulpExp q| ≤ 2 ^ j := by
      rw [abs_mul, abs_of_pos hp, hpow]
      exact mul_le_mul_of_nonneg_right hm (le_of_lt hp)
    refine ⟨_, ?_, hr⟩
    unfold fl
    have hfin : ¬ ((2 : ℚ) ^ (1024 : ℤ) ≤
        |(roundHalfEven (q / 2 ^ ulpExp q) : ℚ) * 2 ^ ulpExp q|) := by
      rw [not_le]
      have h7 : (2 : ℚ) ^ j < 2 ^ (1024 : ℤ) :=
        zpow_lt_zpow_right₀ (by norm_num) (by omega)
      linarith
    rw [if_neg hfin]

/-- The reference `Math` has the exact values and the symmetry of `MathExact`. -/
theorem refMath_exact : MathExact refMath where
  sin_odd := by
    intro x
    cases x with
    | num q =>
      show fl (-q - (-q) ^ 3 / 6) = neg (fl (q - q ^ 3 / 6))
      rw [← fl_neg]
      congr 1
      ring
    | nan => rfl
    | pinf => rfl
    | ninf => rfl
  sin_zero := by
    show fl (0 - 0 ^ 3 / 6) = num 0
    norm_num
    exact fl_zero
  cos_range := by
    intro q
    show ∃ c : ℚ, fl (max (-1) (min 1 (1 - q ^ 2 / 2))) = num c ∧ |c| ≤ 1
    have hb : |max (-1) (min 1 (1 - q ^ 2 / 2))| ≤ (2 : ℚ) ^ (0 : ℤ) := by
      rw [zpow_zero, abs_le]
      exact ⟨le_max_left _ _, max_le (by norm_num) (min_le_left _ _)⟩
    obtain ⟨c, hc, hcb⟩ := fl_le_pow _ 0 (by norm_num) (by norm_num) hb
    exact ⟨c, hc, by simpa using hcb⟩
  sqrt_zero := by
    show (if (0 : ℚ) < 0 then nan else fl ((Nat.sqrt ⌊(0 : ℚ) * 4 ^ 60⌋₊ : ℚ) / 2 ^ 60)) = num 0
    simp [fl_zero]
  sqrt_one := by
    show (if (1 : ℚ) < 0 then nan else fl ((Nat.sqrt ⌊(1 : ℚ) * 4 ^ 60⌋₊ : ℚ) / 2 ^ 60)) = num 1
    have h1 : ⌊(1 : ℚ) * 4 ^ 60⌋₊ = (2 ^ 60) ^ 2 := by
      rw [one_mul]
      have : ((4 : ℚ) ^ 60) = (((2 ^ 60) ^ 2 : ℕ) : ℚ) := by norm_num
      rw [this, Nat.floor_natCast]
    rw [h1, Nat.sqrt_eq', if_neg (by norm_num)]
    have : (((2 ^ 60 : ℕ) : ℚ)) / 2 ^ 60 = 1 := by norm_num
    rw [this, fl_one]
  atan2_zero_one := by
    show (if (0 : ℚ) < 1 then fl (0 / 1) else nan) = num 0
    simp [fl_zero]

/-- C8, at the reference `Math` and the point (40, -73). -/
theorem calculateDistance_symm_and_diag_witness :
    MathExact refMath ∧
    calculateDistance refMath ⟨num 40, num (-73)⟩ ⟨num 40, num (-73)⟩ = num 0 :=
  ⟨refMath_exact,
   (calculateDistance_symm_and_diag refMath refMath_exact).2 40 (-73) (by norm_num)⟩

/-! ## `calculateFare` -/

theorem add_nan_right (x : JSNum) : add x nan = nan := by
  cases x <;> rfl

theorem mul_nan_right (x : JSNum) : mul x nan = nan := by
  cases x <;> rfl

theorem mul_num (a b : ℚ) : mul (num a) (num b) = fl (a * b) := rfl

theorem add_num (a b : ℚ) : add (num a) (num b) = fl (a + b) := rfl

theorem sub_num (a b : ℚ) : sub (num a) (num b) = fl (a - b) := by
  show fl (a + -b) = fl (a - b)
  rw [sub_eq_add_neg]

theorem div_num (a b : ℚ) (hb : b ≠ 0) : div (num a) (num b) = fl (a / b) := by
  show (if b = 0 then _ else fl (a / b)) = fl (a / b)
  rw [if_neg hb]

theorem round_num (a : ℚ) : JSNum.round (num a) = num (⌊a + 1 / 2⌋ : ℤ) := rfl

/-- The literal `1.50` is a binary64 value. -/
theorem fl_rate_standard : fl (150 / 100) = num (3 / 2) := by
  have h := fl_eq_of (150 / 100) 0 6755399441055744 (by norm_num) (by norm_num) (by norm_num)
    (by norm_num) (by norm_num) (by norm_num)
  rw [h]
  congr 1
  norm_num

/-- The literal `2.50` is a binary64 value. -/
theorem fl_base_fare : fl (250 / 100) = num (5 / 2) := by
  have h := fl_eq_of (250 / 100) 1 5629499534213120 (by norm_num) (by norm_num) (by norm_num)
    (by norm_num) (by norm_num) (by norm_num)
  rw [h]
  congr 1
  norm_num

/-- A ride type naming a property inherited from `Object.prototype` reads a
truthy non-number rate, and the fare is `NaN`, whatever the distance. -/
theorem calculateFare_inherited (d : JSNum) (s : String) (hs : s ∈ objectPrototypeKeys) :
    calculateFare d (.str s) = nan := by
  have hne : ∀ t ∈ ["economy", "standard", "premium", "xl"], s ≠ t := by
    intro t ht hst
    subst hst
    revert hs
    simp only [List.mem_cons, List.mem_singleton, List.not_mem_nil, or_false] at ht
    rcases ht with rfl | rfl | rfl | rfl <;> decide
  have hrate : perMileRates s = .object := by
    unfold perMileRates
    rw [if_neg (hne _ (by simp)), if_neg (hne _ (by simp)), if_neg (hne _ (by simp)),
      if_neg (hne _ (by simp)), if_pos hs]
  unfold calculateFare
  simp only [reduceCtorEq, if_false, RideTypeArg.key, hrate, JSVal.truthy, if_true,
    JSVal.toNumber, mul_nan_right, add_nan_right]
  rfl

/-- C9 at its failing input: for the ride type `'toString'`, which is none of
the four tier names, the fare of a 10 mile ride is `NaN`, while for `'standard'`
it is 17.5. -/
theorem calculateFare_toString_is_nan :
    calculateFare (num 10) (.str "toString") = nan ∧
    calculateFare (num 10) (.str "standard") = num (35 / 2) := by
  constructor
  · exact calculateFare_inherited (num 10) "toString" (by decide)
  · have hrate : perMileRates "standard" = .number (num (3 / 2)) := by
      unfold perMileRates
      rw [if_neg (by decide), if_pos rfl, fl_rate_standard]
    have htr : (num (3 / 2 : ℚ)).truthy = true := by
      simp [JSNum.truthy]
    have h15 : fl (10 * (3 / 2)) = num 15 := by
      have h := fl_eq_of (10 * (3 / 2)) 3 8444249301319680 (by norm_num) (by norm_num)
        (by norm_num) (by norm_num) (by norm_num) (by norm_num)
      rw [h]
      congr 1
      norm_num
    have h175 : fl (5 / 2 + 15) = num (35 / 2) := by
      have h := fl_eq_of (5 / 2 + 15) 4 4925812092436480 (by norm_num) (by norm_num)
        (by norm_num) (by norm_num) (by norm_num) (by norm_num)
      rw [h]
      congr 1
      norm_num
    have h1750 : fl (35 / 2 * 100) = num 1750 := by
      have h := fl_eq_of (35 / 2 * 100) 10 7696581394432000 (by norm_num) (by norm_num)
        (by norm_num) (by norm_num) (by norm_num) (by norm_num)
      rw [h]
      congr 1
      norm_num
    have hround : JSNum.round (num 1750) = num 1750 := by
      rw [round_num]
      norm_num
    have hdiv : fl (1750 / 100) = num (35 / 2) := by
      have h := fl_eq_of (1750 / 100) 4 4925812092436480 (by norm_num) (by norm_num)
        (by norm_num) (by norm_num) (by norm_num) (by norm_num)
      rw [h]
      congr 1
      norm_num
    unfold calculateFare
    simp only [reduceCtorEq, if_false, RideTypeArg.key, hrate, JSVal.truthy, htr, if_true,
      JSVal.toNumber, fl_base_fare]
    rw [mul_num, h15, add_num, h175, mul_num, h1750, hround, div_num _ _ (by norm_num), hdiv]

/-- A ride type that names neither a tier nor an inherited property is charged
at the standard rate. -/
theorem calculateFare_fallback (d : JSNum) (s : String)
    (h1 : s ∉ ["economy", "standard", "premium", "xl"]) (h2 : s ∉ objectPrototypeKeys) :
    calculateFare d (.str s) = calculateFare d (.str "standard") := by
  simp only [List.mem_cons, List.mem_singleton, List.not_mem_nil, or_false, not_or] at h1
  have hrate : perMileRates s = .undefined := by
    unfold perMileRates
    rw [if_neg h1.1, if_neg h1.2.1, if_neg h1.2.2.1, if_neg h1.2.2.2, if_neg h2]
  have hstd : perMileRates "standard" = .number (num (3 / 2)) := by
    unfold perMileRates
    rw [if_neg (by decide), if_pos rfl, fl_rate_standard]
  have htr : (num (3 / 2 : ℚ)).truthy = true := by
    simp [JSNum.truthy]
  unfold calculateFare
  simp only [reduceCtorEq, if_false, RideTypeArg.key, hrate, hstd, JSVal.truthy, htr, if_true,
    Bool.false_eq_true]

/-! ## Create -/

/-- A Number is serialised to a non-null JSON value exactly when it is finite. -/
theorem toJSON_isSome_iff (x : JSNum) : x.toJSON.isSome = true ↔ ∃ q : ℚ, x = num q := by
  cases x <;> simp [toJSON]

/-- With `NaN` latitudes the reference `Math` gives the distance `NaN`. -/
theorem calculateDistance_nan (lng1 lng2 : JSNum) :
    calculateDistance refMath ⟨nan, lng1⟩ ⟨nan, lng2⟩ = nan := by
  unfold calculateDistance
  have h1 : sub nan nan = nan := rfl
  have h2 : toRad nan = nan := rfl
  have h3 : div nan (num 2) = nan := rfl
  have h4 : refMath.sin nan = nan := rfl
  have h5 : ∀ x, add nan x = nan := fun x => by cases x <;> rfl
  have h9 : mul nan nan = nan := rfl
  have h10 : mul nan (num 100) = nan := rfl
  have h11 : JSNum.round nan = nan := rfl
  have h6 : refMath.sqrt nan = nan := rfl
  have h7 : sub (num 1) nan = nan := rfl
  have h8 : refMath.atan2 nan nan = nan := rfl
  simp only [h1, h2, h3, h4, h9, h5, h6, h7, h8, mul_nan_right, h10, h11]
  rfl

/-- The fare of a `NaN` distance is `NaN`. -/
theorem calculateFare_nan (rideType : RideTypeArg) : calculateFare nan rideType = nan := by
  unfold calculateFare
  have h1 : ∀ x, mul nan x = nan := fun x => by cases x <;> rfl
  simp only [h1, add_nan_right]
  rfl

/-- C7 as stated fails: a rider's request whose coordinate objects carry no
numeric `lat` is inserted in status requested with `distance` and
`estimated_fare` both null. -/
theorem create_null_distance_counterexample :
    (requestRide refMath "t0" (some "r9") ⟨"u1", "rider"⟩
        ⟨"A", "B", some ⟨nan, num 0⟩, some ⟨nan, num 0⟩, .undefined⟩ []).db.map
      (fun r => (r.status, r.distance, r.estimated_fare)) = [("requested", none, none)] := by
  simp [requestRide, insertRow, calculateDistance_nan, calculateFare_nan, toJSON]

/-- C7, amended. Create succeeds exactly for a rider whose request has both
coordinate objects and whose insert succeeds. Then one ride is appended and
returned, with status requested, no driver, and `distance` and
`estimated_fare` the JSON forms of `calculateDistance(pickup, dropoff)` and of
`calculateFare` of that distance (non-null exactly when the Number is finite),
and exactly one new-ride-request event goes to the room drivers, carrying the
new ride's id. In every other case the store is as it was and no event is
emitted. -/
theorem create_outcome (M : MathImpl) (now : String) (generated : Option Id) (user : User)
    (body : RideRequestBody) (db : List Ride) :
    ((requestRide M now generated user body db).reply.isSuccess = true ↔
      (user.userType = "rider" ∧ ∃ p q i, body.pickupCoordinates = some p ∧
        body.dropoffCoordinates = some q ∧ generated = some i ∧ i ∉ db.map Ride.id)) ∧
    (∀ p q i, user.userType = "rider" → body.pickupCoordinates = some p →
      body.dropoffCoordinates = some q → generated = some i → i ∉ db.map Ride.id →
      ∃ ride : Ride,
        requestRide M now generated user body db =
          ⟨db ++ [ride], .ride 201 "Ride requested successfully" ride,
            [⟨"drivers", "new-ride-request",
              .newRideRequest i user.userId body.pickupAddress body.dropoffAddress p q
                (calculateFare (calculateDistance M p q) body.rideType)
                (calculateDistance M p q) (rideTypeOrStandard body.rideType)⟩]⟩ ∧
        ride.id = i ∧ ride.rider_id = user.userId ∧ ride.status = "requested" ∧
        ride.driver_id = none ∧
        ride.distance = (calculateDistance M p q).toJSON ∧
        ride.estimated_fare = (calculateFare (calculateDistance M p q) body.rideType).toJSON ∧
        (ride.distance.isSome = true ↔ ∃ d : ℚ, calculateDistance M p q = num d) ∧
        (ride.estimated_fare.isSome = true ↔
          ∃ f : ℚ, calculateFare (calculateDistance M p q) body.rideType = num f)) ∧
    ((requestRide M now generated user body db).reply.isSuccess = false →
      (requestRide M now generated user body db).db = db ∧
      (requestRide M now generated user body db).emitted = []) := by
  by_cases hu : user.userType = "rider"
  · cases hp : body.pickupCoordinates with
    | none =>
      have hrun : requestRide M now generated user body db =
          ⟨db, .error 500 "Internal server error", []⟩ := by
        simp [requestRide, hu, hp]
      rw [hrun]
      refine ⟨?_, ?_, fun _ => ⟨rfl, rfl⟩⟩
      · simp [Reply.isSuccess]
      · intro p q i _ h
        cases h
    | some p0 =>
      cases hq : body.dropoffCoordinates with
      | none =>
        have hrun : requestRide M now generated user body db =
            ⟨db, .error 500 "Internal server error", []⟩ := by
          simp [requestRide, hu, hp, hq]
        rw [hrun]
        refine ⟨?_, ?_, fun _ => ⟨rfl, rfl⟩⟩
        · simp [Reply.isSuccess]
        · intro p q i _ _ h
          cases h
      | some q0 =>
        cases generated with
        | none =>
          have hrun : requestRide M now none user body db =
              ⟨db, .error 500 "Failed to create ride request", []⟩ := by
            simp [requestRide, hu, hp, hq, insertRow]
          rw [hrun]
          refine ⟨?_, ?_, fun _ => ⟨rfl, rfl⟩⟩
          · simp [Reply.isSuccess]
          · intro p q i _ _ _ h
            cases h
        | some i0 =>
          by_cases hi : i0 ∈ db.map Ride.id
          · have hrun : requestRide M now (some i0) user body db =
                ⟨db, .error 500 "Failed to create ride request", []⟩ := by
              simp only [requestRide, hu, hp, hq, insertRow, hi, if_true, ne_eq,
                not_true_eq_false, if_false]
            rw [hrun]
            refine ⟨?_, ?_, fun _ => ⟨rfl, rfl⟩⟩
            · simp only [Reply.isSuccess]
              constructor
              · intro h
                cases h
              · rintro ⟨_, p, q, i, _, _, hgi, hni⟩
                cases hgi
                exact absurd hi hni
            · intro p q i _ _ _ hgi hni
              cases hgi
              exact absurd hi hni
          · have hrun : ∃ ride : Ride,
                requestRide M now (some i0) user body db =
                  ⟨db ++ [ride], .ride 201 "Ride requested successfully" ride,
                    [⟨"drivers", "new-ride-request",
                      .newRideRequest i0 user.userId body.pickupAddress body.dropoffAddress
                        p0 q0 (calculateFare (calculateDistance M p0 q0) body.rideType)
                        (calculateDistance M p0 q0) (rideTypeOrStandard body.rideType)⟩]⟩ ∧
                ride.id = i0 ∧ ride.rider_id = user.userId ∧ ride.status = "requested" ∧
                ride.driver_id = none ∧
                ride.distance = (calculateDistance M p0 q0).toJSON ∧
                ride.estimated_fare =
                  (calculateFare (calculateDistance M p0 q0) body.rideType).toJSON := by
              simp only [requestRide, hu, hp, hq, insertRow, hi, if_false, ne_eq,
                not_true_eq_false]
              exact ⟨_, rfl, rfl, rfl, rfl, rfl, rfl, rfl⟩
            obtain ⟨ride, hrun, h1, h2, h3, h4, h5, h6⟩ := hrun
            rw [hrun]
            refine ⟨?_, ?_, ?_⟩
            · simp only [Reply.isSuccess, true_iff]
              exact ⟨hu, p0, q0, i0, rfl, rfl, rfl, hi⟩
            · intro p q i _ hp1 hq1 hgi _
              cases hp1
              cases hq1
              cases hgi
              refine ⟨ride, rfl, h1, h2, h3, h4, h5, h6, ?_, ?_⟩
              · rw [h5]
                exact toJSON_isSome_iff _
              · rw [h6]
                exact toJSON_isSome_iff _
            · intro h
              simp [Reply.isSuccess] at h
  · have hrun : requestRide M now generated user body db =
        ⟨db, .error 403 "Only riders can request rides", []⟩ := by
      simp [requestRide, hu]
    rw [hrun]
    refine ⟨?_, ?_, fun _ => ⟨rfl, rfl⟩⟩
    · simp only [Reply.isSuccess]
      constructor
      · intro h
        cases h
      · rintro ⟨h, _⟩
        exact absurd h hu
    · intro p q i h
      exact absurd h hu

/-! ## The scenario of the specification: (40.0, -73.0) to (40.1, -73.0) -/

/-- The binary64 value of a positive rational, with the value spelled out. -/
theorem fl_eq_num (q r : ℚ) (k m : ℤ) (hk : -1022 ≤ k) (hlo : (2 : ℚ) ^ k ≤ q)
    (hhi : q < (2 : ℚ) ^ (k + 1))
    (hm1 : ((m : ℚ) - 1 / 2) * 2 ^ (k - 52) < q) (hm2 : q < ((m : ℚ) + 1 / 2) * 2 ^ (k - 52))
    (hfin : (m : ℚ) * 2 ^ (k - 52) < 2 ^ (1024 : ℤ)) (hr : (m : ℚ) * 2 ^ (k - 52) = r) :
    fl q = num r := by
  rw [fl_eq_of q k m hk hlo hhi hm1 hm2 hfin, hr]

/-- The literal `40.1` as a binary64 value. -/
theorem fl_lat_dropoff : fl (401 / 10) = num (5643573283048653 / 140737488355328) :=
  fl_eq_num _ _ 5 5643573283048653 (by norm_num) (by norm_num) (by norm_num) (by norm_num)
    (by norm_num) (by norm_num) (by norm_num)

/-- The half latitude difference of the scenario, in radians:
`toRad(40.1 - 40.0) / 2`. -/
theorem scenario_half_dLat :
    div (toRad (sub (fl (401 / 10)) (num 40))) (num 2) =
      num (4024455254487347 / 4611686018427387904) := by
  have h1 : fl (5643573283048653 / 140737488355328 - 40) =
      num (14073748835533 / 140737488355328) :=
    fl_eq_num _ _ (-4) 7205759403792896 (by norm_num) (by norm_num) (by norm_num)
      (by norm_num) (by norm_num) (by norm_num) (by norm_num)
  have h2 : fl (14073748835533 / 140737488355328 * (884279719003555 / 281474976710656)) =
      num (353711887601427 / 1125899906842624) :=
    fl_eq_num _ _ (-2) 5659390201622832 (by norm_num) (by norm_num) (by norm_num)
      (by norm_num) (by norm_num) (by norm_num) (by norm_num)
  have h3 : fl (353711887601427 / 1125899906842624 / 180) =
      num (4024455254487347 / 2305843009213693952) :=
    fl_eq_num _ _ (-10) 8048910508974694 (by norm_num) (by norm_num) (by norm_num)
      (by norm_num) (by norm_num) (by norm_num) (by norm_num)
  have h4 : fl (4024455254487347 / 2305843009213693952 / 2) =
      num (4024455254487347 / 4611686018427387904) :=
    fl_eq_num _ _ (-11) 8048910508974694 (by norm_num) (by norm_num) (by norm_num)
      (by norm_num) (by norm_num) (by norm_num) (by norm_num)
  rw [fl_lat_dropoff, sub_num, h1]
  unfold toRad Math_PI
  rw [mul_num, h2, div_num _ _ (by norm_num), h3, div_num _ _ (by norm_num), h4]

/-- The fare of the scenario: 6.91 miles at the standard rate is 12.87. -/
theorem scenario_fare : calculateFare (fl (691 / 100)) (.str "standard") = fl (1287 / 100) := by
  have hrate : perMileRates "standard" = .number (num (3 / 2)) := by
    unfold perMileRates
    rw [if_neg (by decide), if_pos rfl, fl_rate_standard]
  have htr : (num (3 / 2 : ℚ)).truthy = true := by
    simp [JSNum.truthy]
  have hd : fl (691 / 100) = num (1944992089070633 / 281474976710656) :=
    fl_eq_num _ _ 2 7779968356282532 (by norm_num) (by norm_num) (by norm_num) (by norm_num)
      (by norm_num) (by norm_num) (by norm_num)
  have h1 : fl (1944992089070633 / 281474976710656 * (3 / 2)) =
      num (5834976267211899 / 562949953421312) :=
    fl_eq_num _ _ 3 5834976267211899 (by norm_num) (by norm_num) (by norm_num) (by norm_num)
      (by norm_num) (by norm_num) (by norm_num)
  have h2 : fl (5 / 2 + 5834976267211899 / 562949953421312) =
      num (7242351150765179 / 562949953421312) :=
    fl_eq_num _ _ 3 7242351150765179 (by norm_num) (by norm_num) (by norm_num) (by norm_num)
      (by norm_num) (by norm_num) (by norm_num)
  have h3 : fl (7242351150765179 / 562949953421312 * 100) = num (2573 / 2) :=
    fl_eq_num _ _ 10 5658086836535296 (by norm_num) (by norm_num) (by norm_num) (by norm_num)
      (by norm_num) (by norm_num) (by norm_num)
  have hround : JSNum.round (num (2573 / 2)) = num 1287 := by
    rw [round_num]
    norm_num
  unfold calculateFare
  simp only [reduceCtorEq, if_false, RideTypeArg.key, hrate, JSVal.truthy, htr, if_true,
    JSVal.toNumber, fl_base_fare]
  rw [hd, mul_num, h1, add_num, h2, mul_num, h3, hround, div_num _ _ (by norm_num)]

/-! ## Bounds on the real functions -/

/-- The sine of a small positive angle lies between `x - x³/4` and `x`. -/
theorem sin_enclosure (x : ℝ) (h0 : 0 < x) (h1 : x ≤ 1) :
    x - x ^ 3 / 4 < Real.sin x ∧ Real.sin x ≤ x :=
  ⟨Real.sin_gt_sub_cube h0 h1, Real.sin_le (le_of_lt h0)⟩

/-- The arc tangent of `u` in `[0, 1]` lies between `u - u³` and `u`. -/
theorem arctan_enclosure (u : ℝ) (h0 : 0 ≤ u) (h1 : u ≤ 1) :
    u - u ^ 3 ≤ Real.arctan u ∧ Real.arctan u ≤ u := by
  have hpi : (1 : ℝ) < Real.pi / 2 := by
    have := Real.pi_gt_three
    linarith
  constructor
  · by_cases hw : u - u ^ 3 ≤ 0
    · have : 0 ≤ Real.arctan u := by
        have := Real.arctan_strictMono.monotone h0
        rwa [Real.arctan_zero] at this
      linarith
    · push_neg at hw
      have hwu : u - u ^ 3 ≤ u := by
        have : 0 ≤ u ^ 3 := by positivity
        linarith
      have hw1 : u - u ^ 3 ≤ 1 := le_trans hwu h1
      have hcos : 1 - (u - u ^ 3) ^ 2 / 2 ≤ Real.cos (u - u ^ 3) :=
        Real.one_sub_sq_div_two_le_cos
      have hsin : Real.sin (u - u ^ 3) ≤ u - u ^ 3 := Real.sin_le (le_of_lt hw)
      have hden : 0 < 1 - (u - u ^ 3) ^ 2 / 2 := by nlinarith
      have hcpos : 0 < Real.cos (u - u ^ 3) := lt_of_lt_of_le hden hcos
      have htan : Real.tan (u - u ^ 3) ≤ u := by
        rw [Real.tan_eq_sin_div_cos, div_le_iff₀ hcpos]
        have h2 : u - u ^ 3 ≤ u * (1 - (u - u ^ 3) ^ 2 / 2) := by
          have h3 : (u - u ^ 3) ^ 2 ≤ u ^ 2 := by
            exact pow_le_pow_left₀ (le_of_lt hw) hwu 2
          nlinarith [mul_nonneg h0 (sq_nonneg u), mul_le_mul_of_nonneg_left h3 h0]
        calc Real.sin (u - u ^ 3) ≤ u - u ^ 3 := hsin
          _ ≤ u * (1 - (u - u ^ 3) ^ 2 / 2) := h2
          _ ≤ u * Real.cos (u - u ^ 3) := mul_le_mul_of_nonneg_left hcos h0
      have hmono := Real.arctan_strictMono.monotone htan
      rwa [Real.arctan_tan (by linarith) (by linarith)] at hmono
  · rcases eq_or_lt_of_le h0 with h | h
    · rw [← h, Real.arctan_zero]
    · have htan : u < Real.tan u := Real.lt_tan h (by linarith)
      have hmono := Real.arctan_strictMono htan
      rw [Real.arctan_tan (by linarith) (by linarith)] at hmono
      exact le_of_lt hmono

/-- The square root of a number between two squares. -/
theorem sqrt_enclosure (a lo hi : ℝ) (hhi0 : 0 ≤ hi) (hlo : lo ^ 2 ≤ a)
    (hhi : a ≤ hi ^ 2) : lo ≤ Real.sqrt a ∧ Real.sqrt a ≤ hi :=
  ⟨Real.le_sqrt_of_sq_le hlo, Real.sqrt_le_iff.mpr ⟨hhi0, hhi⟩⟩

/-- Rounding keeps a rational inside a slightly widened interval. -/
theorem fl_enclose (q lo hi err : ℚ) (k : ℤ) (hk1 : -1022 ≤ k) (hk2 : k ≤ 1022)
    (hlo : lo ≤ q) (hhi : q ≤ hi) (hb1 : -(2 : ℚ) ^ (k + 1) < lo) (hb2 : hi < 2 ^ (k + 1))
    (herr : (2 : ℚ) ^ (k - 53) ≤ err) :
    ∃ r : ℚ, fl q = num r ∧ lo - err ≤ r ∧ r ≤ hi + err := by
  have hq : |q| < (2 : ℚ) ^ (k + 1) := by
    rw [abs_lt]
    constructor <;> linarith
  obtain ⟨r, hr, he⟩ := fl_error q k hk1 hk2 hq
  have he2 := abs_le.mp he
  exact ⟨r, hr, by linarith [he2.1], by linarith [he2.2]⟩

theorem sub_self_num (q : ℚ) : sub (num q) (num q) = num 0 := by
  rw [sub_num, sub_self, fl_zero]

theorem toRad_zero : toRad (num 0) = num 0 := by
  unfold toRad Math_PI
  rw [mul_num, zero_mul, fl_zero, div_num _ _ (by norm_num), zero_div, fl_zero]

theorem mul_num_zero (q : ℚ) : mul (num q) (num 0) = num 0 := by
  rw [mul_num, mul_zero, fl_zero]

/-- The sine term of the scenario: the engine's sine of the half latitude
difference, squared. -/
theorem scenario_sin_sq (M : MathImpl) (hacc : MathAccurate M) :
    ∃ p : ℚ, mul (M.sin (num (4024455254487347 / 4611686018427387904)))
        (M.sin (num (4024455254487347 / 4611686018427387904))) = num p ∧
      76151 / 100000000000 ≤ p ∧ p ≤ 76158 / 100000000000 := by
  obtain ⟨s, hs, hsacc⟩ := hacc.sin_small (4024455254487347 / 4611686018427387904)
    (by norm_num) (by norm_num)
  have hreal := sin_enclosure ((4024455254487347 / 4611686018427387904 : ℚ) : ℝ)
    (by norm_num) (by norm_num)
  have hab := abs_le.mp hsacc
  have hsL : (87265 / 100000000 : ℚ) ≤ s := by
    have h : ((87265 / 100000000 : ℚ) : ℝ) ≤ (s : ℝ) := by
      have h1 : ((87265 / 100000000 : ℚ) : ℝ) ≤
          ((4024455254487347 / 4611686018427387904 : ℚ) : ℝ) -
            ((4024455254487347 / 4611686018427387904 : ℚ) : ℝ) ^ 3 / 4 - 1 / 10 ^ 8 := by
        norm_num
      linarith [hreal.1, hab.1]
    exact_mod_cast h
  have hsH : s ≤ (87268 / 100000000 : ℚ) := by
    have h : (s : ℝ) ≤ ((87268 / 100000000 : ℚ) : ℝ) := by
      have h1 : ((4024455254487347 / 4611686018427387904 : ℚ) : ℝ) + 1 / 10 ^ 8 ≤
          ((87268 / 100000000 : ℚ) : ℝ) := by
        norm_num
      linarith [hreal.2, hab.2]
    exact_mod_cast h
  have hs0 : (0 : ℚ) ≤ s := le_trans (by norm_num) hsL
  have hlo : (761518 / 1000000000000 : ℚ) ≤ s * s := by nlinarith
  have hhi : s * s ≤ (761571 / 1000000000000 : ℚ) := by nlinarith
  obtain ⟨p, hp, hp1, hp2⟩ := fl_enclose (s * s) _ _ (1 / 10 ^ 15) (-21) (by norm_num)
    (by norm_num) hlo hhi (by norm_num) (by norm_num) (by norm_num)
  refine ⟨p, ?_, ?_, ?_⟩
  · rw [hs, mul_num, hp]
  · linarith
  · linarith

/-- The cosine term of the scenario vanishes: the longitudes are equal. -/
theorem scenario_cos_term (M : MathImpl) (hsin0 : M.sin (num 0) = num 0)
    (hcos : ∀ q : ℚ, ∃ c : ℚ, M.cos (num q) = num c ∧ |c| ≤ 1) :
    mul (mul (mul (M.cos (toRad (num 40))) (M.cos (toRad (fl (401 / 10)))))
        (M.sin (div (toRad (sub (num (-73)) (num (-73)))) (num 2))))
      (M.sin (div (toRad (sub (num (-73)) (num (-73)))) (num 2))) = num 0 := by
  have hlon : div (toRad (sub (num (-73)) (num (-73)))) (num 2) = num 0 := by
    rw [sub_self_num, toRad_zero, div_num _ _ (by norm_num), zero_div, fl_zero]
  obtain ⟨r1, hr1⟩ := toRad_finite 40 (by norm_num)
  obtain ⟨r2, hr2⟩ := toRad_finite (5643573283048653 / 140737488355328)
    (by rw [abs_of_pos (by norm_num)]; norm_num)
  obtain ⟨c1, hc1, hb1⟩ := hcos r1
  obtain ⟨c2, hc2, hb2⟩ := hcos r2
  have hprod : |c1 * c2| ≤ (2 : ℚ) ^ (0 : ℤ) := by
    rw [zpow_zero, abs_mul]
    calc |c1| * |c2| ≤ 1 * 1 := mul_le_mul hb1 hb2 (abs_nonneg _) (by norm_num)
      _ = 1 := by norm_num
  obtain ⟨c3, hc3, _⟩ := fl_le_pow _ 0 (by norm_num) (by norm_num) hprod
  rw [hlon, hsin0, fl_lat_dropoff, hr1, hr2, hc1, hc2, mul_num, hc3, mul_num_zero,
    mul_num_zero]

/-- The haversine term `a` of the scenario and the two square roots taken of it. -/
theorem scenario_roots (M : MathImpl) (hacc : MathAccurate M) (p : ℚ)
    (hp1 : 76151 / 100000000000 ≤ p) (hp2 : p ≤ 76158 / 100000000000) :
    ∃ y x : ℚ, M.sqrt (add (num p) (num 0)) = num y ∧
      M.sqrt (sub (num 1) (add (num p) (num 0))) = num x ∧
      87262 / 100000000 ≤ y ∧ y ≤ 87271 / 100000000 ∧
      999999 / 1000000 ≤ x ∧ x ≤ 1000001 / 1000000 := by
  obtain ⟨a, ha, ha1, ha2⟩ := fl_enclose (p + 0) (76151 / 100000000000)
    (76158 / 100000000000) (1 / 10 ^ 15) (-21) (by norm_num) (by norm_num)
    (by linarith) (by linarith) (by norm_num) (by norm_num) (by norm_num)
  have haL : (7615 / 10000000000 : ℚ) ≤ a := by linarith
  have haH : a ≤ (76159 / 100000000000 : ℚ) := by linarith
  obtain ⟨y, hy, hyacc⟩ := hacc.sqrt_close a (by linarith) (by linarith)
  have hyab := abs_le.mp hyacc
  have hyreal := sqrt_enclosure (a : ℝ) (87263 / 100000000) (8727 / 10000000) (by norm_num)
    (by
      have h : ((7615 / 10000000000 : ℚ) : ℝ) ≤ (a : ℝ) := by exact_mod_cast haL
      have h2 : ((87263 / 100000000 : ℝ)) ^ 2 ≤ ((7615 / 10000000000 : ℚ) : ℝ) := by norm_num
      linarith)
    (by
      have h : (a : ℝ) ≤ ((76159 / 100000000000 : ℚ) : ℝ) := by exact_mod_cast haH
      have h2 : ((76159 / 100000000000 : ℚ) : ℝ) ≤ ((8727 / 10000000 : ℝ)) ^ 2 := by norm_num
      linarith)
  have hyL : (87262 / 100000000 : ℚ) ≤ y := by
    have h : ((87262 / 100000000 : ℚ) : ℝ) ≤ (y : ℝ) := by
      have h1 : ((87262 / 100000000 : ℚ) : ℝ) ≤ 87263 / 100000000 - 1 / 10 ^ 8 := by norm_num
      linarith [hyreal.1, hyab.1]
    exact_mod_cast h
  have hyH : y ≤ (87271 / 100000000 : ℚ) := by
    have h : (y : ℝ) ≤ ((87271 / 100000000 : ℚ) : ℝ) := by
      have h1 : (8727 / 10000000 : ℝ) + 1 / 10 ^ 8 ≤ ((87271 / 100000000 : ℚ) : ℝ) := by
        norm_num
      linarith [hyreal.2, hyab.2]
    exact_mod_cast h
  obtain ⟨b, hb, hb1, hb2⟩ := fl_enclose (1 - a) (1 - 76159 / 100000000000)
    (1 - 7615 / 10000000000) (1 / 10 ^ 15) (-1) (by norm_num) (by norm_num)
    (by linarith) (by linarith) (by norm_num) (by norm_num) (by norm_num)
  have hbL : (9999992 / 10000000 : ℚ) ≤ b := by linarith
  have hbH : b ≤ (9999993 / 10000000 : ℚ) := by linarith
  obtain ⟨x, hx, hxacc⟩ := hacc.sqrt_close b (by linarith) (by linarith)
  have hxab := abs_le.mp hxacc
  have hxreal := sqrt_enclosure (b : ℝ) (9999992 / 10000000) 1 (by norm_num)
    (by
      have h : ((9999992 / 10000000 : ℚ) : ℝ) ≤ (b : ℝ) := by exact_mod_cast hbL
      have h2 : ((9999992 / 10000000 : ℝ)) ^ 2 ≤ ((9999992 / 10000000 : ℚ) : ℝ) := by norm_num
      linarith)
    (by
      have h : (b : ℝ) ≤ ((9999993 / 10000000 : ℚ) : ℝ) := by exact_mod_cast hbH
      have h2 : ((9999993 / 10000000 : ℚ) : ℝ) ≤ ((1 : ℝ)) ^ 2 := by norm_num
      linarith)
  have hxL : (999999 / 1000000 : ℚ) ≤ x := by
    have h : ((999999 / 1000000 : ℚ) : ℝ) ≤ (x : ℝ) := by
      have h1 : ((999999 / 1000000 : ℚ) : ℝ) ≤ 9999992 / 10000000 - 1 / 10 ^ 8 := by norm_num
      linarith [hxreal.1, hxab.1]
    exact_mod_cast h
  have hxH : x ≤ (1000001 / 1000000 : ℚ) := by
    have h : (x : ℝ) ≤ ((1000001 / 1000000 : ℚ) : ℝ) := by
      have h1 : (1 : ℝ) + 1 / 10 ^ 8 ≤ ((1000001 / 1000000 : ℚ) : ℝ) := by norm_num
      linarith [hxreal.2, hxab.2]
    exact_mod_cast h
  refine ⟨y, x, ?_, ?_, hyL, hyH, hxL, hxH⟩
  · rw [add_num, ha, hy]
  · rw [add_num, ha, sub_num, hb, hx]

/-- The angle of the scenario returned by the engine's `atan2`. -/
theorem scenario_angle (M : MathImpl) (hacc : MathAccurate M) (y x : ℚ)
    (hy1 : 87262 / 100000000 ≤ y) (hy2 : y ≤ 87271 / 100000000)
    (hx1 : 999999 / 1000000 ≤ x) (hx2 : x ≤ 1000001 / 1000000) :
    ∃ t : ℚ, M.atan2 (num y) (num x) = num t ∧
      87259 / 100000000 ≤ t ∧ t ≤ 87273 / 100000000 := by
  obtain ⟨t, ht, htacc⟩ := hacc.atan2_small y x (by linarith) (by linarith) (by linarith)
    (by linarith)
  have htab := abs_le.mp htacc
  have hyr1 : (87262 / 100000000 : ℝ) ≤ (y : ℝ) := by
    have h : ((87262 / 100000000 : ℚ) : ℝ) ≤ (y : ℝ) := by exact_mod_cast hy1
    push_cast at h
    linarith
  have hyr2 : (y : ℝ) ≤ (87271 / 100000000 : ℝ) := by
    have h : (y : ℝ) ≤ ((87271 / 100000000 : ℚ) : ℝ) := by exact_mod_cast hy2
    push_cast at h
    linarith
  have hxr1 : (999999 / 1000000 : ℝ) ≤ (x : ℝ) := by
    have h : ((999999 / 1000000 : ℚ) : ℝ) ≤ (x : ℝ) := by exact_mod_cast hx1
    push_cast at h
    linarith
  have hxr2 : (x : ℝ) ≤ (1000001 / 1000000 : ℝ) := by
    have h : (x : ℝ) ≤ ((1000001 / 1000000 : ℚ) : ℝ) := by exact_mod_cast hx2
    push_cast at h
    linarith
  have hxpos : (0 : ℝ) < (x : ℝ) := by linarith
  have hu1 : (87261 / 100000000 : ℝ) ≤ (y : ℝ) / (x : ℝ) := by
    rw [le_div_iff₀ hxpos]
    nlinarith
  have hu2 : (y : ℝ) / (x : ℝ) ≤ (87272 / 100000000 : ℝ) := by
    rw [div_le_iff₀ hxpos]
    nlinarith
  have hu0 : (0 : ℝ) ≤ (y : ℝ) / (x : ℝ) := by linarith
  have hreal := arctan_enclosure ((y : ℝ) / (x : ℝ)) hu0 (by linarith)
  have hcube : ((y : ℝ) / (x : ℝ)) ^ 3 ≤ 1 / 10 ^ 9 := by
    have h := pow_le_pow_left₀ hu0 hu2 3
    have h2 : (87272 / 100000000 : ℝ) ^ 3 ≤ 1 / 10 ^ 9 := by norm_num
    linarith
  refine ⟨t, ht, ?_, ?_⟩
  · have h : ((87259 / 100000000 : ℚ) : ℝ) ≤ (t : ℝ) := by
      have h1 : ((87259 / 100000000 : ℚ) : ℝ) ≤
          87261 / 100000000 - 1 / 10 ^ 9 - 1 / 10 ^ 8 := by norm_num
      linarith [hreal.1, htab.1]
    exact_mod_cast h
  · have h : (t : ℝ) ≤ ((87273 / 100000000 : ℚ) : ℝ) := by
      have h1 : (87272 / 100000000 : ℝ) + 1 / 10 ^ 8 ≤ ((87273 / 100000000 : ℚ) : ℝ) := by
        norm_num
      linarith [hreal.2, htab.2]
    exact_mod_cast h

/-- From the angle to the rounded distance of the scenario. -/
theorem scenario_tail (t : ℚ) (ht1 : 87259 / 100000000 ≤ t) (ht2 : t ≤ 87273 / 100000000) :
    div (JSNum.round (mul (mul (num 3959) (mul (num 2) (num t))) (num 100))) (num 100) =
      fl (691 / 100) := by
  obtain ⟨c, hc, hc1, hc2⟩ := fl_enclose (2 * t) (174518 / 100000000) (174546 / 100000000)
    (1 / 10 ^ 15) (-10) (by norm_num) (by norm_num) (by linarith) (by linarith)
    (by norm_num) (by norm_num) (by norm_num)
  obtain ⟨d, hd, hd1, hd2⟩ := fl_enclose (3959 * c) (69091 / 10000) (69104 / 10000)
    (1 / 10 ^ 12) 2 (by norm_num) (by norm_num) (by linarith) (by linarith)
    (by norm_num) (by norm_num) (by norm_num)
  obtain ⟨e, he, he1, he2⟩ := fl_enclose (d * 100) (69090 / 100) (69105 / 100)
    (1 / 10 ^ 10) 9 (by norm_num) (by norm_num) (by linarith) (by linarith)
    (by norm_num) (by norm_num) (by norm_num)
  have hfloor : ⌊e + 1 / 2⌋ = 691 := by
    rw [Int.floor_eq_iff]
    constructor
    · push_cast
      linarith
    · push_cast
      linarith
  rw [mul_num, hc, mul_num, hd, mul_num, he, round_num, hfloor]
  have h691 : (((691 : ℤ) : ℚ)) = 691 := by norm_num
  rw [h691, div_num _ _ (by norm_num)]

/-- The distance of the scenario. For an engine with `sin 0 = 0`, a finite
cosine within `[-1, 1]` and the accuracy of `MathAccurate`, the distance from
(40.0, -73.0) to (40.1, -73.0) is 6.91. -/
theorem scenario_distance (M : MathImpl) (hsin0 : M.sin (num 0) = num 0)
    (hcos : ∀ q : ℚ, ∃ c : ℚ, M.cos (num q) = num c ∧ |c| ≤ 1) (hacc : MathAccurate M) :
    calculateDistance M ⟨num 40, num (-73)⟩ ⟨fl (401 / 10), num (-73)⟩ = fl (691 / 100) := by
  obtain ⟨p, hp, hp1, hp2⟩ := scenario_sin_sq M hacc
  obtain ⟨y, x, hy, hx, hy1, hy2, hx1, hx2⟩ := scenario_roots M hacc p hp1 hp2
  obtain ⟨t, ht, ht1, ht2⟩ := scenario_angle M hacc y x hy1 hy2 hx1 hx2
  unfold calculateDistance
  simp only []
  rw [scenario_cos_term M hsin0 hcos, scenario_half_dLat, hp, hy, hx, ht]
  exact scenario_tail t ht1 ht2

/-- The reference `Math` meets the accuracy of `MathAccurate`. -/
theorem refMath_accurate : MathAccurate refMath where
  sin_small := by
    intro q h0 h1
    show ∃ s : ℚ, fl (q - q ^ 3 / 6) = num s ∧ |(s : ℝ) - Real.sin (q : ℝ)| ≤ 1 / 10 ^ 8
    have hq3 : 0 ≤ q ^ 3 := by positivity
    have hq3le : q ^ 3 ≤ q := by
      have : q ^ 2 ≤ 1 := by nlinarith
      nlinarith
    have hv : |q - q ^ 3 / 6| < (2 : ℚ) ^ ((-10 : ℤ) + 1) := by
      rw [abs_lt]
      constructor
      · have : (0 : ℚ) < 2 ^ ((-10 : ℤ) + 1) := by positivity
        linarith
      · have : (1 / 1024 : ℚ) < 2 ^ ((-10 : ℤ) + 1) := by norm_num
        linarith
    obtain ⟨s, hs, herr⟩ := fl_error _ (-10) (by norm_num) (by norm_num) hv
    refine ⟨s, hs, ?_⟩
    have herr2 : |(s : ℝ) - ((q : ℝ) - (q : ℝ) ^ 3 / 6)| ≤ 1 / 10 ^ 9 := by
      have h : |((s - (q - q ^ 3 / 6) : ℚ) : ℝ)| ≤ (((2 : ℚ) ^ ((-10 : ℤ) - 53) : ℚ) : ℝ) := by
        rw [← Rat.cast_abs]
        exact_mod_cast herr
      have h2 : (((2 : ℚ) ^ ((-10 : ℤ) - 53) : ℚ) : ℝ) ≤ 1 / 10 ^ 9 := by norm_num
      push_cast at h
      linarith
    have hqr0 : (0 : ℝ) ≤ (q : ℝ) := by exact_mod_cast h0
    have hqr1 : (q : ℝ) ≤ 1 / 1024 := by
      have h : (q : ℝ) ≤ ((1 / 1024 : ℚ) : ℝ) := by exact_mod_cast h1
      push_cast at h
      linarith
    have hsin := Real.sin_bound (x := (q : ℝ)) (by rw [abs_of_nonneg hqr0]; linarith)
    have hq4 : |(q : ℝ)| ^ 4 * (5 / 96) ≤ 1 / 10 ^ 9 := by
      rw [abs_of_nonneg hqr0]
      have h := pow_le_pow_left₀ hqr0 hqr1 4
      have h2 : (1 / 1024 : ℝ) ^ 4 * (5 / 96) ≤ 1 / 10 ^ 9 := by norm_num
      nlinarith
    have habs := abs_le.mp herr2
    have hsb := abs_le.mp (le_trans hsin hq4)
    rw [abs_le]
    constructor <;> linarith [habs.1, habs.2, hsb.1, hsb.2]
  sqrt_close := by
    intro q h0 h1
    show ∃ r : ℚ, (if q < 0 then nan else fl ((Nat.sqrt ⌊q * 4 ^ 60⌋₊ : ℚ) / 2 ^ 60)) = num r ∧
      |(r : ℝ) - Real.sqrt (q : ℝ)| ≤ 1 / 10 ^ 8
    rw [if_neg (not_lt.mpr h0)]
    obtain ⟨n, hn⟩ : ∃ n : ℕ, ⌊q * 4 ^ 60⌋₊ = n := ⟨_, rfl⟩
    have hfl1 : (n : ℚ) ≤ q * 4 ^ 60 := by
      rw [← hn]
      exact Nat.floor_le (by positivity)
    have hfl2 : q * 4 ^ 60 < (n : ℚ) + 1 := by
      rw [← hn]
      exact Nat.lt_floor_add_one _
    rw [hn]
    have hs1 : ((Nat.sqrt n : ℕ) : ℚ) ^ 2 ≤ (n : ℚ) := by
      exact_mod_cast Nat.sqrt_le' n
    have hs2 : (n : ℚ) + 1 ≤ (((Nat.sqrt n : ℕ) : ℚ) + 1) ^ 2 := by
      have h : n + 1 ≤ (Nat.sqrt n + 1) ^ 2 := Nat.lt_succ_sqrt' n
      exact_mod_cast h
    have hs0 : (0 : ℚ) ≤ ((Nat.sqrt n : ℕ) : ℚ) := by positivity
    generalize ((Nat.sqrt n : ℕ) : ℚ) = s at hs1 hs2 hs0 ⊢
    have hw1 : (s / 2 ^ 60) ^ 2 ≤ q := by
      rw [div_pow, div_le_iff₀ (by positivity)]
      have : ((2 : ℚ) ^ 60) ^ 2 = 4 ^ 60 := by norm_num
      rw [this]
      linarith
    have hw2 : q < (s / 2 ^ 60 + 1 / 2 ^ 60) ^ 2 := by
      have h : s / 2 ^ 60 + 1 / 2 ^ 60 = (s + 1) / 2 ^ 60 := by ring
      rw [h, div_pow, lt_div_iff₀ (by positivity)]
      have : ((2 : ℚ) ^ 60) ^ 2 = 4 ^ 60 := by norm_num
      rw [this]
      linarith
    have hw0 : 0 ≤ s / 2 ^ 60 := by positivity
    have hwlt : s / 2 ^ 60 < 2 := by
      by_contra h
      push_neg at h
      nlinarith
    have hv : |s / 2 ^ 60| < (2 : ℚ) ^ ((0 : ℤ) + 1) := by
      rw [abs_of_nonneg hw0]
      norm_num
      linarith
    obtain ⟨r, hr, herr⟩ := fl_error _ 0 (by norm_num) (by norm_num) hv
    refine ⟨r, hr, ?_⟩
    have herr2 : |(r : ℝ) - ((s / 2 ^ 60 : ℚ) : ℝ)| ≤ 1 / 10 ^ 9 := by
      have h : |((r - s / 2 ^ 60 : ℚ) : ℝ)| ≤ (((2 : ℚ) ^ ((0 : ℤ) - 53) : ℚ) : ℝ) := by
        rw [← Rat.cast_abs]
        exact_mod_cast herr
      have h2 : (((2 : ℚ) ^ ((0 : ℤ) - 53) : ℚ) : ℝ) ≤ 1 / 10 ^ 9 := by norm_num
      push_cast at h ⊢
      linarith
    have hlow : ((s / 2 ^ 60 : ℚ) : ℝ) ≤ Real.sqrt (q : ℝ) := by
      apply Real.le_sqrt_of_sq_le
      exact_mod_cast hw1
    have hupp : Real.sqrt (q : ℝ) ≤ ((s / 2 ^ 60 + 1 / 2 ^ 60 : ℚ) : ℝ) := by
      rw [Real.sqrt_le_iff]
      constructor
      · have : (0 : ℚ) ≤ s / 2 ^ 60 + 1 / 2 ^ 60 := by positivity
        exact_mod_cast this
      · exact_mod_cast le_of_lt hw2
    have hgap : ((s / 2 ^ 60 + 1 / 2 ^ 60 : ℚ) : ℝ) ≤ ((s / 2 ^ 60 : ℚ) : ℝ) + 1 / 10 ^ 9 := by
      push_cast
      have : (1 : ℝ) / 2 ^ 60 ≤ 1 / 10 ^ 9 := by norm_num
      linarith
    have habs := abs_le.mp herr2
    rw [abs_le]
    constructor <;> linarith [habs.1, habs.2]
  atan2_small := by
    intro y x hy0 hy1 hx0 hx1
    show ∃ t : ℚ, (if 0 < x then fl (y / x) else nan) = num t ∧
      |(t : ℝ) - Real.arctan ((y : ℝ) / (x : ℝ))| ≤ 1 / 10 ^ 8
    have hxpos : 0 < x := by linarith
    rw [if_pos hxpos]
    have hu0 : 0 ≤ y / x := div_nonneg hy0 (le_of_lt hxpos)
    have hu1 : y / x ≤ 1 / 512 := by
      rw [div_le_iff₀ hxpos]
      linarith
    have hv : |y / x| < (2 : ℚ) ^ ((-9 : ℤ) + 1) := by
      rw [abs_of_nonneg hu0]
      have : (1 / 512 : ℚ) < 2 ^ ((-9 : ℤ) + 1) := by norm_num
      linarith
    obtain ⟨t, ht, herr⟩ := fl_error _ (-9) (by norm_num) (by norm_num) hv
    refine ⟨t, ht, ?_⟩
    have herr2 : |(t : ℝ) - (y : ℝ) / (x : ℝ)| ≤ 1 / 10 ^ 9 := by
      have h : |((t - y / x : ℚ) : ℝ)| ≤ (((2 : ℚ) ^ ((-9 : ℤ) - 53) : ℚ) : ℝ) := by
        rw [← Rat.cast_abs]
        exact_mod_cast herr
      have h2 : (((2 : ℚ) ^ ((-9 : ℤ) - 53) : ℚ) : ℝ) ≤ 1 / 10 ^ 9 := by norm_num
      push_cast at h
      linarith
    have hur0 : (0 : ℝ) ≤ (y : ℝ) / (x : ℝ) := by
      have : ((0 : ℚ) : ℝ) ≤ ((y / x : ℚ) : ℝ) := by exact_mod_cast hu0
      push_cast at this
      exact this
    have hur1 : (y : ℝ) / (x : ℝ) ≤ 1 / 512 := by
      have : ((y / x : ℚ) : ℝ) ≤ ((1 / 512 : ℚ) : ℝ) := by exact_mod_cast hu1
      push_cast at this
      linarith
    have hreal := arctan_enclosure ((y : ℝ) / (x : ℝ)) hur0 (by linarith)
    have hcube : ((y : ℝ) / (x : ℝ)) ^ 3 ≤ 8 / 10 ^ 9 := by
      have h := pow_le_pow_left₀ hur0 hur1 3
      have h2 : (1 / 512 : ℝ) ^ 3 ≤ 8 / 10 ^ 9 := by norm_num
      linarith
    have habs := abs_le.mp herr2
    rw [abs_le]
    constructor <;> linarith [habs.1, habs.2, hreal.1, hreal.2]

/-- The binary64 value written `6.91`. -/
theorem fl_691 : fl (691 / 100) = num (1944992089070633 / 281474976710656) :=
  fl_eq_num _ _ 2 7779968356282532 (by norm_num) (by norm_num) (by norm_num) (by norm_num)
    (by norm_num) (by norm_num) (by norm_num)

/-- The binary64 value written `6.93`. -/
theorem fl_693 : fl (693 / 100) = num (975310794302423 / 140737488355328) :=
  fl_eq_num _ _ 2 7802486354419384 (by norm_num) (by norm_num) (by norm_num) (by norm_num)
    (by norm_num) (by norm_num) (by norm_num)

/-- The binary64 value written `12.87`. -/
theorem fl_1287 : fl (1287 / 100) = num (7245165900532285 / 562949953421312) :=
  fl_eq_num _ _ 3 7245165900532285 (by norm_num) (by norm_num) (by norm_num) (by norm_num)
    (by norm_num) (by norm_num) (by norm_num)

/-- What Create stores for a rider's request with both coordinates when the
insert succeeds. -/
theorem requestRide_stores (M : MathImpl) (now : String) (i : Id) (user : User)
    (body : RideRequestBody) (db : List Ride) (p q : Coord)
    (hu : user.userType = "rider") (hp : body.pickupCoordinates = some p)
    (hq : body.dropoffCoordinates = some q) (hi : i ∉ db.map Ride.id) :
    ∃ ride : Ride, (requestRide M now (some i) user body db).db = db ++ [ride] ∧
      ride.status = "requested" ∧
      ride.distance = (calculateDistance M p q).toJSON ∧
      ride.estimated_fare = (calculateFare (calculateDistance M p q) body.rideType).toJSON := by
  simp only [requestRide, hu, hp, hq, insertRow, hi, if_false, ne_eq, not_true_eq_false]
  exact ⟨_, rfl, rfl, rfl, rfl⟩

/-- C10 as stated fails: with the reference `Math` the distance of the scenario
is 6.91, which is not 6.93, and no engine with `sin 0 = 0`, a cosine within
`[-1, 1]` and the accuracy of `MathAccurate` makes `calculateDistance` return
6.93. -/
theorem scenario_not_693_counterexample :
    calculateDistance refMath ⟨num 40, num (-73)⟩ ⟨fl (401 / 10), num (-73)⟩ = fl (691 / 100) ∧
    fl (691 / 100) ≠ fl (693 / 100) ∧
    ¬ ∃ M : MathImpl, M.sin (num 0) = num 0 ∧
      (∀ q : ℚ, ∃ c : ℚ, M.cos (num q) = num c ∧ |c| ≤ 1) ∧ MathAccurate M ∧
      calculateDistance M ⟨num 40, num (-73)⟩ ⟨fl (401 / 10), num (-73)⟩ = fl (693 / 100) := by
  have hne : fl (691 / 100) ≠ fl (693 / 100) := by
    rw [fl_691, fl_693]
    intro h
    injection h with h
    norm_num at h
  refine ⟨scenario_distance refMath refMath_exact.sin_zero refMath_exact.cos_range
    refMath_accurate, hne, ?_⟩
  rintro ⟨M, h0, hc, ha, h⟩
  rw [scenario_distance M h0 hc ha] at h
  exact hne h

/-- C10, amended. For an engine with `sin 0 = 0`, a cosine within `[-1, 1]` and
the accuracy of `MathAccurate`, the request from (40.0, -73.0) to (40.1, -73.0)
with ride type standard has `calculateDistance` 6.91 and `calculateFare` of
that distance 12.87, and a rider's Create whose insert succeeds stores these
two binary64 values as `distance` and `estimated_fare`. -/
theorem scenario_create (M : MathImpl) (hsin0 : M.sin (num 0) = num 0)
    (hcos : ∀ q : ℚ, ∃ c : ℚ, M.cos (num q) = num c ∧ |c| ≤ 1) (hacc : MathAccurate M) :
    calculateDistance M ⟨num 40, num (-73)⟩ ⟨fl (401 / 10), num (-73)⟩ = fl (691 / 100) ∧
    calculateFare (calculateDistance M ⟨num 40, num (-73)⟩ ⟨fl (401 / 10), num (-73)⟩)
      (.str "standard") = fl (1287 / 100) ∧
    (∀ (now : String) (i : Id) (user : User) (pickupAddress dropoffAddress : String)
      (db : List Ride), user.userType = "rider" → i ∉ db.map Ride.id →
      ∃ ride : Ride,
        (requestRide M now (some i) user
          ⟨pickupAddress, dropoffAddress, some ⟨num 40, num (-73)⟩,
            some ⟨fl (401 / 10), num (-73)⟩, .str "standard"⟩ db).db = db ++ [ride] ∧
        ride.status = "requested" ∧
        ride.distance = some (1944992089070633 / 281474976710656) ∧
        ride.estimated_fare = some (7245165900532285 / 562949953421312)) := by
  have hd := scenario_distance M hsin0 hcos hacc
  refine ⟨hd, ?_, ?_⟩
  · rw [hd, scenario_fare]
  · intro now i user pa da db hu hi
    obtain ⟨ride, h1, h2, h3, h4⟩ := requestRide_stores M now i user
      ⟨pa, da, some ⟨num 40, num (-73)⟩, some ⟨fl (401 / 10), num (-73)⟩, .str "standard"⟩
      db _ _ hu rfl rfl hi
    refine ⟨ride, h1, h2, ?_, ?_⟩
    · rw [h3, hd, fl_691]
      rfl
    · rw [h4, hd, scenario_fare, fl_1287]
      rfl

/-- C10 amended, at the reference `Math`. -/
theorem scenario_create_witness :
    refMath.sin (num 0) = num 0 ∧ MathAccurate refMath ∧
    calculateDistance refMath ⟨num 40, num (-73)⟩ ⟨fl (401 / 10), num (-73)⟩ =
      fl (691 / 100) :=
  ⟨refMath_exact.sin_zero, refMath_accurate,
   (scenario_create refMath refMath_exact.sin_zero refMath_exact.cos_range
      refMath_accurate).1⟩

/-! ## The connection registry -/

/-- A deleted key is absent. -/
theorem mapGet_mapDelete_self (k : Id) (m : List (Id × UserData)) :
    mapGet k (mapDelete k m) = none := by
  induction m with
  | nil => rfl
  | cons e rest ih =>
    unfold mapDelete at ih ⊢
    by_cases h : e.1 = k
    · simp only [List.filter_cons, h, ne_eq, not_true_eq_false, decide_False]
      exact ih
    · simp only [List.filter_cons, h, ne_eq, not_false_eq_true, decide_True, if_true, mapGet,
        if_false]
      exact ih

/-- Deleting a key leaves the value of every other key. -/
theorem mapGet_mapDelete_other (k k1 : Id) (hne : k1 ≠ k) (m : List (Id × UserData)) :
    mapGet k1 (mapDelete k m) = mapGet k1 m := by
  induction m with
  | nil => rfl
  | cons e rest ih =>
    have hstep : mapDelete k (e :: rest) =
        if e.1 = k then mapDelete k rest else e :: mapDelete k rest := by
      by_cases h : e.1 = k <;> simp [mapDelete, List.filter_cons, h]
    rw [hstep]
    by_cases h : e.1 = k
    · have h1 : e.1 ≠ k1 := fun h2 => hne (h2.symm.trans h)
      rw [if_pos h, ih]
      simp [mapGet, h1]
    · rw [if_neg h]
      by_cases h1 : e.1 = k1
      · simp [mapGet, h1]
      · simp [mapGet, h1, ih]

/-- A key that was set has the value set. -/
theorem mapGet_mapSet_self (k : Id) (v : UserData) (m : List (Id × UserData)) :
    mapGet k (mapSet k v m) = some v := by
  induction m with
  | nil => simp [mapSet, mapGet]
  | cons e rest ih =>
    by_cases h : e.1 = k
    · simp [mapSet, mapGet, h]
    · simp [mapSet, mapGet, h, ih]

/-- A socket is a member of a room it has joined. -/
theorem mem_socketJoin_self (c : Id) (room : String) (rooms : List (Id × String)) :
    (c, room) ∈ socketJoin c room rooms := by
  unfold socketJoin
  by_cases h : (c, room) ∈ rooms
  · rw [if_pos h]
    exact h
  · rw [if_neg h]
    simp

/-- Joining a room keeps every membership there is. -/
theorem mem_socketJoin_of_mem (c : Id) (room : String) (rooms : List (Id × String))
    (e : Id × String) (he : e ∈ rooms) : e ∈ socketJoin c room rooms := by
  unfold socketJoin
  by_cases h : (c, room) ∈ rooms
  · rw [if_pos h]
    exact he
  · rw [if_neg h]
    exact List.mem_append_left _ he

/-- A `join` as a driver puts the socket into the pool `drivers` and into the
room `driver-<userId>`, and records the identity. -/
theorem onJoin_driver (c : Id) (userId : String) (s : Registry) :
    mapGet c (onJoin c ⟨userId, "driver"⟩ s).connectedUsers = some ⟨userId, "driver"⟩ ∧
    (c, "drivers") ∈ (onJoin c ⟨userId, "driver"⟩ s).rooms ∧
    (c, "driver-" ++ userId) ∈ (onJoin c ⟨userId, "driver"⟩ s).rooms := by
  refine ⟨mapGet_mapSet_self _ _ _, ?_, ?_⟩
  · simp only [onJoin, if_true]
    exact mem_socketJoin_self _ _ _
  · simp only [onJoin, if_true]
    exact mem_socketJoin_of_mem _ _ _ _ (mem_socketJoin_self _ _ _)

/-- The `disconnect` handler itself touches no room; the rooms of the closing
socket are emptied by Socket.IO. -/
theorem onDisconnect_rooms (c : Id) (s : Registry) : (onDisconnect c s).rooms = s.rooms :=
  rfl

/-- C11. Disconnecting socket `c` leaves no entry for `c` in `connectedUsers`
and no room with `c` in it; the entry and the rooms of every other socket are
as before, whatever identity that socket joined with; and a `join` as a driver
on any socket afterwards records the identity and makes the socket a member of
`drivers` and of `driver-<userId>`. -/
theorem disconnect_frame_and_rejoin (s : Registry) (c : Id) :
    mapGet c (disconnect c s).connectedUsers = none ∧
    (∀ room : String, (c, room) ∉ (disconnect c s).rooms) ∧
    (∀ c1 : Id, c1 ≠ c →
      mapGet c1 (disconnect c s).connectedUsers = mapGet c1 s.connectedUsers ∧
      ∀ room : String, (c1, room) ∈ (disconnect c s).rooms ↔ (c1, room) ∈ s.rooms) ∧
    (∀ (c2 : Id) (userId : String),
      mapGet c2 (onJoin c2 ⟨userId, "driver"⟩ (disconnect c s)).connectedUsers =
        some ⟨userId, "driver"⟩ ∧
      (c2, "drivers") ∈ (onJoin c2 ⟨userId, "driver"⟩ (disconnect c s)).rooms ∧
      (c2, "driver-" ++ userId) ∈ (onJoin c2 ⟨userId, "driver"⟩ (disconnect c s)).rooms) := by
  refine ⟨?_, ?_, ?_, ?_⟩
  · exact mapGet_mapDelete_self c s.connectedUsers
  · intro room hmem
    have h : (c, room) ∈ leaveAll c s.rooms := hmem
    unfold leaveAll at h
    rw [List.mem_filter] at h
    simp at h
  · intro c1 hne
    refine ⟨mapGet_mapDelete_other c c1 hne s.connectedUsers, ?_⟩
    intro room
    show (c1, room) ∈ leaveAll c s.rooms ↔ (c1, room) ∈ s.rooms
    unfold leaveAll
    rw [List.mem_filter]
    simp [hne]
  · intro c2 userId
    exact onJoin_driver c2 userId (disconnect c s)

/-! ## Rating a ride -/

/-- With at most one rating per ride, the ratings of a ride are none or one. -/
theorem ratings_of_ride {ratings : List Rating} (hinv : OneRatingPerRide ratings)
    (rideId : Id) :
    ((∀ x ∈ ratings, x.ride_id ≠ rideId) ∧
      ratings.filter (fun x => x.ride_id = rideId) = []) ∨
    (∃ x ∈ ratings, x.ride_id = rideId ∧
      ratings.filter (fun x => x.ride_id = rideId) = [x]) := by
  induction ratings with
  | nil =>
    left
    exact ⟨fun x hx => absurd hx (List.not_mem_nil x), rfl⟩
  | cons y ys ih =>
    unfold OneRatingPerRide at hinv ih
    rw [List.map_cons, List.nodup_cons] at hinv
    have hy : ∀ x ∈ ys, x.ride_id ≠ y.ride_id := by
      intro x hx hxy
      exact hinv.1 (List.mem_map.mpr ⟨x, hx, hxy⟩)
    by_cases h : y.ride_id = rideId
    · right
      have hnone : ys.filter (fun x => x.ride_id = rideId) = [] := by
        rw [List.filter_eq_nil_iff]
        intro x hx hpx
        have : x.ride_id = rideId := by simpa using hpx
        exact hy x hx (this.trans h.symm)
      refine ⟨y, List.mem_cons_self _ _, h, ?_⟩
      simp [List.filter_cons, h, hnone]
    · rcases ih hinv.2 with ⟨hall, hfil⟩ | ⟨x, hx, hxid, hfil⟩
      · left
        refine ⟨?_, ?_⟩
        · intro x hx
          rcases List.mem_cons.mp hx with hxy | hxys
          · rw [hxy]
            exact h
          · exact hall x hxys
        · simp [List.filter_cons, h, hfil]
      · right
        refine ⟨x, List.mem_cons_of_mem _ hx, hxid, ?_⟩
        simp [List.filter_cons, h, hfil]

/-- The two ways a rate call can end: no rating and the table as it was, or a
rated reply for a rider whose completed ride had no single rating on record,
with one row appended for that ride. -/
theorem rateDriver_shape (now : String) (generated : Option Id) (user : User) (body : RateBody)
    (rides : List Ride) (ratings : List Rating) :
    ((rateDriver now generated user body rides ratings).reply.isRated = false ∧
      (rateDriver now generated user body rides ratings).ratings = ratings) ∨
    ((rateDriver now generated user body rides ratings).reply.isRated = true ∧
      user.userType = "rider" ∧
      (∃ r ∈ rides, r.id = body.rideId ∧ r.rider_id = user.userId ∧ r.status = "completed") ∧
      singleRow (ratings.filter (fun x => x.ride_id = body.rideId)) = none ∧
      ∃ new : Rating,
        (rateDriver now generated user body rides ratings).ratings = ratings ++ [new] ∧
        new.ride_id = body.rideId) := by
  unfold rateDriver
  by_cases hu : user.userType = "rider"
  · simp only [hu, ne_eq, not_true_eq_false, if_false]
    split
    · left
      exact ⟨rfl, rfl⟩
    · rename_i r hride
      have hr : ∃ r ∈ rides, r.id = body.rideId ∧ r.rider_id = user.userId ∧
          r.status = "completed" := by
        have hmem : r ∈ rides.filter (fun r => r.id = body.rideId &&
            r.rider_id = user.userId && r.status = "completed") := by
          revert hride
          generalize rides.filter (fun r => r.id = body.rideId &&
            r.rider_id = user.userId && r.status = "completed") = l
          intro hl
          cases l with
          | nil => cases hl
          | cons a t =>
            cases t with
            | nil =>
              simp only [singleRow, Option.some.injEq] at hl
              rw [hl]
              exact List.mem_singleton.mpr rfl
            | cons b t2 => cases hl
        rw [List.mem_filter] at hmem
        simp only [Bool.and_eq_true, decide_eq_true_eq] at hmem
        exact ⟨r, hmem.1, hmem.2.1.1, hmem.2.1.2, hmem.2.2⟩
      split
      · left
        exact ⟨rfl, rfl⟩
      · rename_i hrat
        split
        · left
          exact ⟨rfl, rfl⟩
        · rename_i ratings1 newRating hins
          right
          refine ⟨rfl, trivial, hr, hrat, newRating, ?_, ?_⟩
          · cases generated with
            | none => cases hins
            | some i =>
              by_cases hi : i ∈ ratings.map Rating.id
              · simp [insertRating, hi] at hins
              · simp only [insertRating, hi, if_false, Option.some.injEq, Prod.mk.injEq] at hins
                rw [← hins.1, ← hins.2]
          · cases generated with
            | none => cases hins
            | some i =>
              by_cases hi : i ∈ ratings.map Rating.id
              · simp [insertRating, hi] at hins
              · simp only [insertRating, hi, if_false, Option.some.injEq, Prod.mk.injEq] at hins
                rw [← hins.2]
  · left
    simp [hu, RateReply.isRated]

/-- With at most one rating per ride, a rate call for a ride that has a rating
inserts nothing. -/
theorem rateDriver_of_rated (now : String) (generated : Option Id) (user : User)
    (body : RateBody) (rides : List Ride) (ratings : List Rating)
    (hinv : OneRatingPerRide ratings) (hex : ∃ x ∈ ratings, x.ride_id = body.rideId) :
    (rateDriver now generated user body rides ratings).reply.isRated = false ∧
    (rateDriver now generated user body rides ratings).ratings = ratings := by
  rcases rateDriver_shape now generated user body rides ratings with h | ⟨_, _, _, hnone, _⟩
  · exact h
  · exfalso
    obtain ⟨x, hx, hxid⟩ := hex
    rcases ratings_of_ride hinv body.rideId with ⟨hall, _⟩ | ⟨y, _, _, hfil⟩
    · exact hall x hx hxid
    · rw [hfil] at hnone
      cases hnone

/-- A rate call keeps "at most one rating per ride". -/
theorem rateDriver_keeps_one (now : String) (generated : Option Id) (user : User)
    (body : RateBody) (rides : List Ride) (ratings : List Rating)
    (hinv : OneRatingPerRide ratings) :
    OneRatingPerRide (rateDriver now generated user body rides ratings).ratings := by
  rcases rateDriver_shape now generated user body rides ratings with
    ⟨_, h⟩ | ⟨_, _, _, hnone, new, hnew, hid⟩
  · rw [h]
    exact hinv
  · rw [hnew]
    have hfresh : ∀ x ∈ ratings, x.ride_id ≠ body.rideId := by
      rcases ratings_of_ride hinv body.rideId with ⟨hall, _⟩ | ⟨y, _, _, hfil⟩
      · exact hall
      · rw [hfil] at hnone
        cases hnone
    unfold OneRatingPerRide at hinv ⊢
    rw [List.map_append, List.map_singleton, List.nodup_append]
    refine ⟨hinv, List.nodup_singleton _, ?_⟩
    intro a ha hb
    rw [List.mem_singleton] at hb
    obtain ⟨x, hx, hxa⟩ := List.mem_map.mp ha
    exact hfresh x hx (hxa.trans (hb.trans hid))

/-- A rider's rate call for a ride none of whose rows is completed gets the
404 reply. -/
theorem rateDriver_not_completed (now : String) (generated : Option Id) (user : User)
    (body : RateBody) (rides : List Ride) (ratings : List Rating)
    (hu : user.userType = "rider")
    (hno : ∀ r ∈ rides, r.id = body.rideId → r.status ≠ "completed") :
    rateDriver now generated user body rides ratings =
      ⟨ratings, .error 404 "Ride not found or not completed"⟩ := by
  have hfil : rides.filter (fun r => r.id = body.rideId && r.rider_id = user.userId &&
      r.status = "completed") = [] := by
    rw [List.filter_eq_nil_iff]
    intro r hr hp
    simp only [Bool.and_eq_true, decide_eq_true_eq] at hp
    exact hno r hr hp.1.1 hp.2
  simp only [rateDriver, hu, ne_eq, not_true_eq_false, if_false, hfil, singleRow]

/-- A rider's rate call for the rider's own completed ride that has a rating
gets the 400 reply. -/
theorem rateDriver_already_rated (now : String) (generated : Option Id) (user : User)
    (body : RateBody) (rides : List Ride) (ratings : List Rating)
    (hinv : OneRatingPerRide ratings) (hpk : PrimaryKey rides)
    (hu : user.userType = "rider")
    (hride : ∃ r ∈ rides, r.id = body.rideId ∧ r.rider_id = user.userId ∧
      r.status = "completed")
    (hex : ∃ x ∈ ratings, x.ride_id = body.rideId) :
    rateDriver now generated user body rides ratings =
      ⟨ratings, .error 400 "Ride already rated"⟩ := by
  obtain ⟨r, hr, hid, hrider, hst⟩ := hride
  have hp : (fun r : Ride => (decide (r.id = body.rideId) && decide (r.rider_id = user.userId)
      && decide (r.status = "completed"))) r = true := by
    simp [hid, hrider, hst]
  have hfil := filter_eq_singleton hpk hr
    (fun r : Ride => (decide (r.id = body.rideId) && decide (r.rider_id = user.userId)
      && decide (r.status = "completed"))) hp
    (fun x hx => by
      simp only [Bool.and_eq_true, decide_eq_true_eq] at hx
      exact hx.1.1.trans hid.symm)
  obtain ⟨x, hx, hxid⟩ := hex
  rcases ratings_of_ride hinv body.rideId with ⟨hall, _⟩ | ⟨y, _, _, hrat⟩
  · exact absurd hxid (hall x hx)
  · simp only [rateDriver, hu, ne_eq, not_true_eq_false, if_false, hfil, hrat, singleRow]

/-- C12 at its failing input: in a store where the completed ride `r1` already
has two ratings, the check for an existing rating reads no single row, the
"Ride already rated" reply is skipped, and a further rate request by the rider
is accepted and inserts a third rating for `r1`. -/
theorem rateDriver_inserts_third_rating :
    (∃ x ∈ [sampleRating "g1", sampleRating "g2"], x.ride_id = "r1") ∧
    (rateDriver "t9" (some "g3") ⟨"u1", "rider"⟩ ⟨"r1", some "d1", .number (num 4), none⟩
        [{ sampleRide with status := "completed" }]
        [sampleRating "g1", sampleRating "g2"]).reply.isRated = true ∧
    (rateDriver "t9" (some "g3") ⟨"u1", "rider"⟩ ⟨"r1", some "d1", .number (num 4), none⟩
        [{ sampleRide with status := "completed" }]
        [sampleRating "g1", sampleRating "g2"]).ratings.map Rating.ride_id =
      ["r1", "r1", "r1"] := by
  decide

/-- The rate handler on a store with at most one rating per ride: a rate call
inserts a rating only for a rider, only if a ride with the given id is the
rider's and completed, and only if no rating for that ride exists; it then
appends one rating for that ride. A failed call leaves the ratings as they
were. A call fails when no row of the ride is completed (for a rider with
the 404 reply) and when the ride already has a rating; so after a successful
call every further call for the same ride fails and leaves the ratings as they
are, and "at most one rating per ride" holds after every call. -/
theorem rate_guard (now : String) (generated : Option Id) (user : User) (body : RateBody)
    (rides : List Ride) (ratings : List Rating) (hinv : OneRatingPerRide ratings) :
    ((rateDriver now generated user body rides ratings).reply.isRated = true →
      user.userType = "rider" ∧
      (∃ r ∈ rides, r.id = body.rideId ∧ r.rider_id = user.userId ∧ r.status = "completed") ∧
      (∀ x ∈ ratings, x.ride_id ≠ body.rideId) ∧
      ∃ new : Rating,
        (rateDriver now generated user body rides ratings).ratings = ratings ++ [new] ∧
        new.ride_id = body.rideId) ∧
    ((rateDriver now generated user body rides ratings).reply.isRated = false →
      (rateDriver now generated user body rides ratings).ratings = ratings) ∧
    ((∀ r ∈ rides, r.id = body.rideId → r.status ≠ "completed") →
      (rateDriver now generated user body rides ratings).reply.isRated = false ∧
      (user.userType = "rider" →
        (rateDriver now generated user body rides ratings).reply =
          .error 404 "Ride not found or not completed")) ∧
    ((∃ x ∈ ratings, x.ride_id = body.rideId) →
      (rateDriver now generated user body rides ratings).reply.isRated = false) ∧
    ((rateDriver now generated user body rides ratings).reply.isRated = true →
      ∀ (now2 : String) (generated2 : Option Id) (user2 : User) (body2 : RateBody)
        (rides2 : List Ride), body2.rideId = body.rideId →
        (rateDriver now2 generated2 user2 body2 rides2
          (rateDriver now generated user body rides ratings).ratings).reply.isRated = false ∧
        (rateDriver now2 generated2 user2 body2 rides2
          (rateDriver now generated user body rides ratings).ratings).ratings =
          (rateDriver now generated user body rides ratings).ratings) ∧
    OneRatingPerRide (rateDriver now generated user body rides ratings).ratings := by
  have hshape := rateDriver_shape now generated user body rides ratings
  have hfresh : singleRow (ratings.filter (fun x => x.ride_id = body.rideId)) = none →
      ∀ x ∈ ratings, x.ride_id ≠ body.rideId := by
    intro hnone
    rcases ratings_of_ride hinv body.rideId with ⟨hall, _⟩ | ⟨y, _, _, hfil⟩
    · exact hall
    · rw [hfil] at hnone
      cases hnone
  refine ⟨?_, ?_, ?_, ?_, ?_, rateDriver_keeps_one now generated user body rides ratings hinv⟩
  · intro hrated
    rcases hshape with ⟨h, _⟩ | ⟨_, hu, hr, hnone, hnew⟩
    · rw [h] at hrated
      cases hrated
    · exact ⟨hu, hr, hfresh hnone, hnew⟩
  · intro hfail
    rcases hshape with ⟨_, h⟩ | ⟨h, _⟩
    · exact h
    · rw [h] at hfail
      cases hfail
  · intro hno
    constructor
    · rcases hshape with ⟨h, _⟩ | ⟨_, _, ⟨r, hr, hid, _, hst⟩, _⟩
      · exact h
      · exact absurd hst (hno r hr hid)
    · intro hu
      rw [rateDriver_not_completed now generated user body rides ratings hu hno]
  · intro hex
    exact (rateDriver_of_rated now generated user body rides ratings hinv hex).1
  · intro hrated now2 generated2 user2 body2 rides2 hsame
    have hone := rateDriver_keeps_one now generated user body rides ratings hinv
    have hex : ∃ x ∈ (rateDriver now generated user body rides ratings).ratings,
        x.ride_id = body2.rideId := by
      rcases hshape with ⟨h, _⟩ | ⟨_, _, _, _, new, hnew, hid⟩
      · rw [h] at hrated
        cases hrated
      · refine ⟨new, ?_, hid.trans hsame.symm⟩
        rw [hnew]
        exact List.mem_append_right _ (List.mem_singleton.mpr rfl)
    exact rateDriver_of_rated now2 generated2 user2 body2 rides2 _ hone hex

/-- The rate handler at a store where ride `r1` has one rating: a second rate
request by the rider is not accepted and the store keeps one rating per ride. -/
theorem rate_guard_witness :
    OneRatingPerRide [sampleRating "g1"] ∧
    (rateDriver "t9" (some "g3") ⟨"u1", "rider"⟩ ⟨"r1", some "d1", .number (num 4), none⟩
        [{ sampleRide with status := "completed" }] [sampleRating "g1"]).reply.isRated
      = false ∧
    OneRatingPerRide
      (rateDriver "t9" (some "g3") ⟨"u1", "rider"⟩ ⟨"r1", some "d1", .number (num 4), none⟩
        [{ sampleRide with status := "completed" }] [sampleRating "g1"]).ratings :=
  ⟨by decide,
   (rate_guard "t9" (some "g3") ⟨"u1", "rider"⟩ ⟨"r1", some "d1", .number (num 4), none⟩
      [{ sampleRide with status := "completed" }] [sampleRating "g1"] (by decide)).2.2.2.1
      ⟨sampleRating "g1", by simp, rfl⟩,
   (rate_guard "t9" (some "g3") ⟨"u1", "rider"⟩ ⟨"r1", some "d1", .number (num 4), none⟩
      [{ sampleRide with status := "completed" }] [sampleRating "g1"]
      (by decide)).2.2.2.2.2⟩

end Uber
